import Mathlib

set_option maxHeartbeats 1000000

namespace Podcast

/-- Text is modelled as a list of characters (a shallow embedding of Python `str`). -/
abbrev Str := List Char

/- ======================================================================
   Text Normalizer — src/modules/preprocessing.py (process_transcript)
   ====================================================================== -/

/-- Model of Python `str.replace(pat, rep)` restricted to a one-character pattern:
every occurrence of the character `pat` is replaced by the string `rep`.
`process_transcript` only calls `replace` with the one-character patterns
`"\n"` and `"\r"`, for which Python's replacement is exactly this character map. -/
def replaceChar (pat : Char) (rep : Str) : Str → Str
  | [] => []
  | c :: cs => (if c = pat then rep else [c]) ++ replaceChar pat rep cs

/-- Translation of `process_transcript` (src/modules/preprocessing.py lines 104-116,
identical in src/preprocessing.py lines 46-57):
`cleaned_transcript = transcript.replace("\n", " ").replace("\r", "")`. -/
def process_transcript (transcript : Str) : Str :=
  replaceChar '\r' [] (replaceChar '\n' [' '] transcript)

theorem replaceChar_append (pat : Char) (rep : Str) (a b : Str) :
    replaceChar pat rep (a ++ b) = replaceChar pat rep a ++ replaceChar pat rep b := by
  induction a with
  | nil => rfl
  | cons c cs ih => simp [replaceChar, ih]

/-- One-pass characterization of the two successive `replace` calls: a newline turns
into a single space, a carriage return is deleted, every other character is kept. -/
theorem process_transcript_eq_filterMap (s : Str) :
    process_transcript s =
      s.filterMap (fun c => if c = '\n' then some ' ' else if c = '\r' then none else some c) := by
  induction s with
  | nil => rfl
  | cons c cs ih =>
    show replaceChar '\r' [] (replaceChar '\n' [' '] (c :: cs)) = _
    rw [replaceChar]
    rw [replaceChar_append]
    by_cases h1 : c = '\n'
    · subst h1
      simpa [List.filterMap_cons, replaceChar] using ih
    · by_cases h2 : c = '\r'
      · subst h2
        simpa [List.filterMap_cons, replaceChar, h1] using ih
      · simpa [List.filterMap_cons, replaceChar, h1, h2] using ih

theorem mem_process_transcript {x : Char} {s : Str} (h : x ∈ process_transcript s) :
    x ≠ '\n' ∧ x ≠ '\r' := by
  rw [process_transcript_eq_filterMap] at h
  rw [List.mem_filterMap] at h
  obtain ⟨c, _, hc⟩ := h
  by_cases h1 : c = '\n'
  · simp [h1] at hc
    subst hc
    exact ⟨by decide, by decide⟩
  · by_cases h2 : c = '\r'
    · simp [h1, h2] at hc
    · simp [h1, h2] at hc
      subst hc
      exact ⟨h1, h2⟩

theorem filterMap_id_of_mem {f : Char → Option Char} :
    ∀ {t : Str}, (∀ x ∈ t, f x = some x) → t.filterMap f = t
  | [], _ => rfl
  | c :: cs, h => by
    have hc : f c = some c := h c (List.mem_cons_self c cs)
    have ih := filterMap_id_of_mem (f := f) (t := cs)
      (fun x hx => h x (List.mem_cons_of_mem c hx))
    simp [List.filterMap_cons, hc, ih]

/-- C5 counterexample: on input `"a\rb"` the code produces `"ab"` — the carriage
return is deleted, not replaced by a space, so the output differs from `"a b"`,
which is what replacing every carriage return with a single space would yield. -/
theorem c5_counterexample :
    process_transcript ("a\rb".data) = "ab".data ∧
    process_transcript ("a\rb".data) ≠ "a b".data := by
  constructor
  · decide
  · decide

/-- C5 (amended): `process_transcript` replaces every newline character with a single
space and deletes (replaces with the empty string) every carriage-return character,
leaving all other characters unchanged. -/
theorem c5_normalize_action (s : Str) :
    process_transcript s =
      s.filterMap (fun c => if c = '\n' then some ' ' else if c = '\r' then none else some c) :=
  process_transcript_eq_filterMap s

/-- C6: `process_transcript` is idempotent, and its output contains no newline and no
carriage-return character. -/
theorem c6_normalize_idempotent (s : Str) :
    process_transcript (process_transcript s) = process_transcript s ∧
    '\n' ∉ process_transcript s ∧ '\r' ∉ process_transcript s := by
  refine ⟨?_, ?_, ?_⟩
  · rw [process_transcript_eq_filterMap (process_transcript s)]
    apply filterMap_id_of_mem
    intro x hx
    have hne := mem_process_transcript hx
    simp [hne.1, hne.2]
  · intro h
    exact (mem_process_transcript h).1 rfl
  · intro h
    exact (mem_process_transcript h).2 rfl

/- ======================================================================
   Language mapping — src/modules/preprocessing.py (map_language_code,
   load_transcript)
   ====================================================================== -/

/-- Model of Python `str.lower()` (the languages in the lookup table are ASCII). -/
def lowerStr (s : Str) : Str := s.map Char.toLower

/-- The fixed lookup table from `map_language_code`
(src/modules/preprocessing.py lines 67-74). -/
def language_map : List (Str × Str) :=
  [("english".data, "en".data), ("french".data, "fr".data), ("spanish".data, "es".data),
   ("hindi".data, "hi".data), ("german".data, "de".data), ("italian".data, "it".data)]

/-- Model of Python `dict.get(key, None)` on an association list with distinct keys. -/
def dictGetStr (key : Str) : List (Str × Str) → Option Str
  | [] => none
  | (k, v) :: rest => if key = k then some v else dictGetStr key rest

/-- Translation of `map_language_code` (src/modules/preprocessing.py lines 45-80):
lower-case the argument, then look it up in the fixed table, returning `None`
when there is no mapping. -/
def map_language_code (language : Str) : Option Str :=
  dictGetStr (lowerStr language) language_map

/-- Model of the language-handling slice of `load_transcript`
(src/modules/preprocessing.py lines 159-171). The audio-file existence check and
the transcription API call are external collaborators and are not modelled here:
`.ok code?` means transcription proceeds, passing the optional language code to the
service (`none` requests auto-detection), while `.error msg` models the raised
`ValueError("Unsupported language: ...")`. The `if lang = []` branch reflects
Python's `if language:`, under which the empty string selects auto-detection. -/
def load_transcript_language : Option Str → Except Str (Option Str)
  | none => .ok none
  | some lang =>
    if lang = [] then .ok none
    else
      match map_language_code lang with
      | some code => .ok (some code)
      | none => .error ("Unsupported language: ".data ++ lang)

theorem dictGetStr_eq_none {key : Str} :
    ∀ {l : List (Str × Str)}, (∀ kv ∈ l, key ≠ kv.1) → dictGetStr key l = none
  | [], _ => rfl
  | (k, v) :: rest, h => by
    have hk : key ≠ k := h (k, v) (List.mem_cons_self _ _)
    have ih := @dictGetStr_eq_none key rest
      (fun kv hkv => h kv (List.mem_cons_of_mem _ hkv))
    simp [dictGetStr, hk, ih]

/-- C7: each of the six supported language names maps, in any letter casing, to its
fixed two-letter code; any other (nonempty) language name makes `load_transcript`
fail with the unsupported-language error; and with no language hint supplied no
error is raised and auto-detection (`none` code) is requested from the service. -/
theorem c7_language_mapping :
    (∀ s : Str, lowerStr s = "english".data → map_language_code s = some ("en".data)) ∧
    (∀ s : Str, lowerStr s = "french".data → map_language_code s = some ("fr".data)) ∧
    (∀ s : Str, lowerStr s = "spanish".data → map_language_code s = some ("es".data)) ∧
    (∀ s : Str, lowerStr s = "hindi".data → map_language_code s = some ("hi".data)) ∧
    (∀ s : Str, lowerStr s = "german".data → map_language_code s = some ("de".data)) ∧
    (∀ s : Str, lowerStr s = "italian".data → map_language_code s = some ("it".data)) ∧
    (∀ s : Str, s ≠ [] → (∀ kv ∈ language_map, lowerStr s ≠ kv.1) →
      load_transcript_language (some s) = .error ("Unsupported language: ".data ++ s)) ∧
    load_transcript_language none = .ok none := by
  refine ⟨?_, ?_, ?_, ?_, ?_, ?_, ?_, rfl⟩
  · intro s h
    unfold map_language_code
    rw [h]
    decide
  · intro s h
    unfold map_language_code
    rw [h]
    decide
  · intro s h
    unfold map_language_code
    rw [h]
    decide
  · intro s h
    unfold map_language_code
    rw [h]
    decide
  · intro s h
    unfold map_language_code
    rw [h]
    decide
  · intro s h
    unfold map_language_code
    rw [h]
    decide
  · intro s hne hkeys
    have hmap : map_language_code s = none := dictGetStr_eq_none hkeys
    simp [load_transcript_language, hne, hmap]

/-- C7 witness: a mixed-casing supported name maps to its code, and an unsupported
name produces the unsupported-language error. -/
theorem c7_language_mapping_witness :
    map_language_code ("EngLISH".data) = some ("en".data) ∧
    load_transcript_language (some ("klingon".data)) =
      .error ("Unsupported language: ".data ++ "klingon".data) := by
  refine ⟨c7_language_mapping.1 ("EngLISH".data) (by decide), ?_⟩
  exact c7_language_mapping.2.2.2.2.2.2.1 ("klingon".data) (by decide) (by decide)

/- ======================================================================
   Fenced-JSON-block extraction — src/modules/content_generation.py,
   `re.search(r'```json\s*(\x7b.*?\x7d)\s*```', text, re.DOTALL)` at lines
   77-79 (object form, generate_seo_elements) and 135-137 (array form,
   generate_faq; also generate_social_media and extract_quotes).
   ====================================================================== -/

/-- ASCII whitespace, the characters matched by the regex class `\s`. -/
def isWs (c : Char) : Bool :=
  c = ' ' || c = '\t' || c = '\n' || c = '\r' || c = '\x0b' || c = '\x0c'

/-- The literal opening of the fenced block in the regex. -/
def fenceJson : Str := "```json".data

/-- The literal closing fence in the regex. -/
def closeFence : Str := "```".data

/-- Boolean test that `s` starts with `p`. -/
def beginsWith : Str → Str → Bool
  | [], _ => true
  | _ :: _, [] => false
  | p :: ps, c :: cs => if p = c then beginsWith ps cs else false

/-- Model of greedy-with-backtracking `\s*`: drop the maximal whitespace run. -/
def dropWs : Str → Str
  | [] => []
  | c :: cs => if isWs c then dropWs cs else c :: cs

/-- Model of the lazy scan `.*?CL` followed by `\s*` and the closing fence: find the
least split `s = a ++ CL :: b` such that after `b`'s whitespace run the closing
fence follows; return `(a, b)`. -/
def scanBody (cl : Char) : Str → Option (Str × Str)
  | [] => none
  | x :: xs =>
    if x = cl ∧ beginsWith closeFence (dropWs xs) = true then some ([], xs)
    else
      match scanBody cl xs with
      | some (a, b) => some (x :: a, b)
      | none => none

/-- Continuation of the regex after the literal `fenceJson` has been matched:
`\s*` then the opening character, then the lazy body scan; the returned string is
capture group 1 including its surrounding brackets. -/
def attemptBody (o cl : Char) : Str → Option Str
  | [] => none
  | y :: ys =>
    if y = o then
      match scanBody cl ys with
      | some (a, _) => some (o :: (a ++ [cl]))
      | none => none
    else none

/-- Attempt the regex continuation at a fixed occurrence of the literal fence. -/
def attemptAt (o cl : Char) (rest : Str) : Option Str :=
  attemptBody o cl (dropWs rest)

/-- Model of `re.search` for the fenced-block pattern: try every start position from
the left; a start position is viable only at an occurrence of the literal
`fenceJson`, and on failure of the continuation the search resumes at later
positions. Returns capture group 1 of the leftmost match. -/
def findFenced (o cl : Char) : Str → Option Str
  | [] => none
  | x :: xs =>
    if beginsWith fenceJson (x :: xs) = true then
      match attemptAt o cl (List.drop 7 (x :: xs)) with
      | some g => some g
      | none => findFenced o cl xs
    else findFenced o cl xs

/-- Translation of the candidate-extraction step shared by the structured kinds
(src/modules/content_generation.py lines 76-81 and 134-140): if the regex finds a
fenced JSON block, the candidate is the captured group, otherwise the candidate is
the whole response text. -/
def extract_json_candidate (o cl : Char) (response_text : Str) : Str :=
  match findFenced o cl response_text with
  | some g => g
  | none => response_text

/-- Declarative reading of the spec sentence: `g` is the bracketed content of a
fenced JSON block occurring in `s` (written independently of the regex engine
model, to be compared with it). -/
def IsFencedAt (o cl : Char) (s g : Str) : Prop :=
  ∃ pre w1 mid w2 post, w1.all isWs = true ∧ w2.all isWs = true ∧
    g = o :: (mid ++ [cl]) ∧
    s = pre ++ (fenceJson ++ (w1 ++ (g ++ (w2 ++ (closeFence ++ post)))))

/-- The text contains a fenced JSON block, in the declarative sense. -/
def HasFencedBlock (o cl : Char) (s : Str) : Prop := ∃ g, IsFencedAt o cl s g

theorem beginsWith_iff {p s : Str} : beginsWith p s = true ↔ ∃ t, s = p ++ t := by
  induction p generalizing s with
  | nil => simp [beginsWith]
  | cons a ps ih =>
    cases s with
    | nil => simp [beginsWith]
    | cons c cs =>
      by_cases h : a = c
      · subst h
        simp [beginsWith, ih]
      · simp only [beginsWith, if_neg h, List.cons_append, List.cons.injEq]
        constructor
        · intro hfalse
          exact absurd hfalse (by simp)
        · rintro ⟨t, hca, _⟩
          exact absurd hca.symm h

theorem beginsWith_refl (p t : Str) : beginsWith p (p ++ t) = true :=
  beginsWith_iff.mpr ⟨t, rfl⟩

theorem dropWs_append_ws {w : Str} (hw : w.all isWs = true) (s : Str) :
    dropWs (w ++ s) = dropWs s := by
  induction w with
  | nil => rfl
  | cons c cs ih =>
    simp only [List.all_cons, Bool.and_eq_true] at hw
    simp [dropWs, hw.1, ih hw.2]

theorem dropWs_not_ws {c : Char} (h : isWs c = false) (s : Str) : dropWs (c :: s) = c :: s := by
  simp [dropWs, h]

theorem dropWs_decomp : ∀ s : Str, ∃ w, w.all isWs = true ∧ s = w ++ dropWs s
  | [] => ⟨[], rfl, rfl⟩
  | c :: cs => by
    cases hc : isWs c with
    | true =>
      obtain ⟨w, hw, he⟩ := dropWs_decomp cs
      refine ⟨c :: w, by simp [List.all_cons, hc, hw], ?_⟩
      rw [dropWs]
      simp only [hc, if_true, List.cons_append]
      exact congrArg (c :: ·) he
    | false => exact ⟨[], rfl, by simp [dropWs, hc]⟩

theorem dropWs_closeFence (post : Str) : dropWs (closeFence ++ post) = closeFence ++ post := by
  show dropWs ('\x60' :: ("``".data ++ post)) = closeFence ++ post
  rw [dropWs_not_ws (by decide)]
  rfl

theorem scanBody_sound {cl : Char} :
    ∀ {s a b : Str}, scanBody cl s = some (a, b) →
      s = a ++ cl :: b ∧ beginsWith closeFence (dropWs b) = true
  | [], a, b, h => by simp [scanBody] at h
  | x :: xs, a, b, h => by
    by_cases hc : x = cl ∧ beginsWith closeFence (dropWs xs) = true
    · rw [scanBody, if_pos hc] at h
      have h' := Option.some.inj h
      injection h' with hA hB
      subst hA
      subst hB
      exact ⟨by simp [hc.1], hc.2⟩
    · rw [scanBody, if_neg hc] at h
      cases hsb : scanBody cl xs with
      | none => rw [hsb] at h; simp at h
      | some p =>
        obtain ⟨a', b'⟩ := p
        rw [hsb] at h
        have h' := Option.some.inj h
        injection h' with hA hB
        subst hA
        subst hB
        have hs := scanBody_sound hsb
        exact ⟨by simp [hs.1], hs.2⟩

theorem scanBody_complete {cl : Char} :
    ∀ {s : Str}, (∃ a b, s = a ++ cl :: b ∧ beginsWith closeFence (dropWs b) = true) →
      (scanBody cl s).isSome = true
  | [], ⟨a, b, he, _⟩ => by simp at he
  | x :: xs, ⟨a, b, he, hb⟩ => by
    by_cases hc : x = cl ∧ beginsWith closeFence (dropWs xs) = true
    · rw [scanBody, if_pos hc]
      rfl
    · rw [scanBody, if_neg hc]
      cases a with
      | nil =>
        simp only [List.nil_append, List.cons.injEq] at he
        obtain ⟨rfl, rfl⟩ := he
        exact absurd ⟨rfl, hb⟩ hc
      | cons a0 as =>
        simp only [List.cons_append, List.cons.injEq] at he
        obtain ⟨rfl, rfl⟩ := he
        have ih := @scanBody_complete cl (as ++ cl :: b) ⟨as, b, rfl, hb⟩
        cases h2 : scanBody cl (as ++ cl :: b) with
        | none => rw [h2] at ih; simp at ih
        | some p =>
          obtain ⟨a', b'⟩ := p
          rfl

theorem attemptAt_sound {o cl : Char} {rest g : Str} (h : attemptAt o cl rest = some g) :
    ∃ w1 mid w2 post, w1.all isWs = true ∧ w2.all isWs = true ∧
      g = o :: (mid ++ [cl]) ∧
      rest = w1 ++ (g ++ (w2 ++ (closeFence ++ post))) := by
  obtain ⟨w0, hw0, hrest⟩ := dropWs_decomp rest
  unfold attemptAt at h
  cases hd : dropWs rest with
  | nil => rw [hd] at h; simp [attemptBody] at h
  | cons y ys =>
    rw [hd] at h
    rw [attemptBody] at h
    by_cases hy : y = o
    · rw [if_pos hy] at h
      cases hs : scanBody cl ys with
      | none => rw [hs] at h; simp at h
      | some p =>
        obtain ⟨a, b⟩ := p
        rw [hs] at h
        have hg : g = o :: (a ++ [cl]) := (Option.some.inj h).symm
        have hsc := scanBody_sound hs
        obtain ⟨t, ht⟩ := beginsWith_iff.mp hsc.2
        obtain ⟨w2, hw2, hb⟩ := dropWs_decomp b
        refine ⟨w0, a, w2, t, hw0, hw2, hg, ?_⟩
        subst hy
        rw [ht] at hb
        rw [hrest, hd, hsc.1, hb, hg]
        simp [List.append_assoc]
    · rw [if_neg hy] at h
      simp at h

theorem attemptAt_complete {o cl : Char} (ho : isWs o = false) (w1 mid w2 post : Str)
    (hw1 : w1.all isWs = true) (hw2 : w2.all isWs = true) :
    (attemptAt o cl (w1 ++ (o :: (mid ++ cl :: (w2 ++ (closeFence ++ post)))))).isSome = true := by
  have h1 : dropWs (w1 ++ (o :: (mid ++ cl :: (w2 ++ (closeFence ++ post))))) =
      o :: (mid ++ cl :: (w2 ++ (closeFence ++ post))) := by
    rw [dropWs_append_ws hw1, dropWs_not_ws ho]
  unfold attemptAt
  rw [h1, attemptBody, if_pos rfl]
  have hsc : (scanBody cl (mid ++ cl :: (w2 ++ (closeFence ++ post)))).isSome = true := by
    apply scanBody_complete
    refine ⟨mid, w2 ++ (closeFence ++ post), rfl, ?_⟩
    rw [dropWs_append_ws hw2, dropWs_closeFence]
    exact beginsWith_refl _ _
  cases hs : scanBody cl (mid ++ cl :: (w2 ++ (closeFence ++ post))) with
  | none => rw [hs] at hsc; simp at hsc
  | some p =>
    obtain ⟨a, b⟩ := p
    rfl

theorem fenceJson_length : fenceJson.length = 7 := by decide

theorem findFenced_sound {o cl : Char} :
    ∀ {s g : Str}, findFenced o cl s = some g → IsFencedAt o cl s g
  | [], g, h => by simp [findFenced] at h
  | x :: xs, g, h => by
    rw [findFenced] at h
    by_cases hb : beginsWith fenceJson (x :: xs) = true
    · rw [if_pos hb] at h
      cases ha : attemptAt o cl (List.drop 7 (x :: xs)) with
      | some g' =>
        rw [ha] at h
        have hg : g' = g := Option.some.inj h
        subst hg
        obtain ⟨t, ht⟩ := beginsWith_iff.mp hb
        have hdrop : List.drop 7 (x :: xs) = t := by
          rw [ht]
          exact List.drop_left' fenceJson_length
        rw [hdrop] at ha
        obtain ⟨w1, mid, w2, post, hw1, hw2, hg, hrest⟩ := attemptAt_sound ha
        refine ⟨[], w1, mid, w2, post, hw1, hw2, hg, ?_⟩
        rw [List.nil_append, ht, hrest]
      | none =>
        rw [ha] at h
        obtain ⟨pre, w1, mid, w2, post, hw1, hw2, hg, he⟩ := findFenced_sound h
        exact ⟨x :: pre, w1, mid, w2, post, hw1, hw2, hg, by rw [List.cons_append, ← he]⟩
    · rw [if_neg hb] at h
      obtain ⟨pre, w1, mid, w2, post, hw1, hw2, hg, he⟩ := findFenced_sound h
      exact ⟨x :: pre, w1, mid, w2, post, hw1, hw2, hg, by rw [List.cons_append, ← he]⟩

theorem findFenced_complete {o cl : Char} (ho : isWs o = false) :
    ∀ {s : Str}, HasFencedBlock o cl s → (findFenced o cl s).isSome = true
  | [], ⟨g, pre, w1, mid, w2, post, _, _, _, he⟩ => by
    exfalso
    have : ([] : Str) ≠ pre ++ (fenceJson ++ (w1 ++ (g ++ (w2 ++ (closeFence ++ post))))) := by
      intro hnil
      have := congrArg List.length hnil
      simp [fenceJson] at this
      omega
    exact this he
  | x :: xs, ⟨g, pre, w1, mid, w2, post, hw1, hw2, hg, he⟩ => by
    cases pre with
    | nil =>
      rw [List.nil_append] at he
      have hb : beginsWith fenceJson (x :: xs) = true := by
        rw [he]
        exact beginsWith_refl _ _
      rw [findFenced, if_pos hb]
      have hdrop : List.drop 7 (x :: xs) = w1 ++ (g ++ (w2 ++ (closeFence ++ post))) := by
        rw [he]
        exact List.drop_left' fenceJson_length
      have hshape : w1 ++ (g ++ (w2 ++ (closeFence ++ post))) =
          w1 ++ (o :: (mid ++ cl :: (w2 ++ (closeFence ++ post)))) := by
        rw [hg]
        simp [List.append_assoc]
      have hatt := @attemptAt_complete o cl ho w1 mid w2 post hw1 hw2
      rw [← hshape] at hatt
      rw [← hdrop] at hatt
      cases ha : attemptAt o cl (List.drop 7 (x :: xs)) with
      | none => rw [ha] at hatt; simp at hatt
      | some g' => rfl
    | cons p pre' =>
      rw [List.cons_append, List.cons.injEq] at he
      have ih := @findFenced_complete o cl ho xs
        ⟨g, pre', w1, mid, w2, post, hw1, hw2, hg, he.2⟩
      rw [findFenced]
      by_cases hb : beginsWith fenceJson (x :: xs) = true
      · rw [if_pos hb]
        cases ha : attemptAt o cl (List.drop 7 (x :: xs)) with
        | some g' => rfl
        | none => exact ih
      · rw [if_neg hb]
        exact ih

theorem extract_cases {o cl : Char} (ho : isWs o = false) (s : Str) :
    (∃ g, IsFencedAt o cl s g ∧ extract_json_candidate o cl s = g) ∨
      (¬ HasFencedBlock o cl s ∧ extract_json_candidate o cl s = s) := by
  cases hf : findFenced o cl s with
  | some g =>
    left
    exact ⟨g, findFenced_sound hf, by simp [extract_json_candidate, hf]⟩
  | none =>
    right
    refine ⟨?_, by simp [extract_json_candidate, hf]⟩
    intro hhas
    have hs := findFenced_complete ho hhas
    rw [hf] at hs
    simp at hs

/-- C4: candidate extraction is a pure function with a fixed precedence, for both the
object-shaped (seo/social) and the array-shaped (faq/quotes) patterns: when the
response text contains a fenced JSON block (in the declarative sense
`HasFencedBlock`), the candidate is the bracketed content of such a block; when it
contains none, the candidate is the entire raw text. -/
theorem c4_extraction_precedence (s : Str) :
    ((∃ g, IsFencedAt '{' '}' s g ∧ extract_json_candidate '{' '}' s = g) ∨
      (¬ HasFencedBlock '{' '}' s ∧ extract_json_candidate '{' '}' s = s)) ∧
    ((∃ g, IsFencedAt '[' ']' s g ∧ extract_json_candidate '[' ']' s = g) ∨
      (¬ HasFencedBlock '[' ']' s ∧ extract_json_candidate '[' ']' s = s)) :=
  ⟨extract_cases (by decide) s, extract_cases (by decide) s⟩

/- ======================================================================
   JSON values and a model of Python `json.loads`
   ====================================================================== -/

/-- JSON values as produced by Python `json.loads`. Floating-point numbers and
string escape sequences are not modelled; no concrete input below uses them. -/
inductive Json where
  | null
  | bool (b : Bool)
  | num (n : Int)
  | str (s : Str)
  | arr (xs : List Json)
  | obj (fields : List (Str × Json))

/-- Accumulate a run of decimal digits. -/
def digitsAux (acc : Nat) : Str → Nat × Str
  | [] => (acc, [])
  | c :: cs => if c.isDigit then digitsAux (10 * acc + (c.toNat - 48)) cs else (acc, c :: cs)

/-- Parse a nonempty run of decimal digits. -/
def parseNat (s : Str) : Option (Nat × Str) :=
  match s with
  | c :: cs => if c.isDigit then some (digitsAux (c.toNat - 48) cs) else none
  | [] => none

/-- Parse the characters of a JSON string up to the closing quote (escape-free). -/
def parseStrChars : Str → Option (Str × Str)
  | [] => none
  | c :: cs =>
    if c = '\x22' then some ([], cs)
    else
      match parseStrChars cs with
      | some (a, r) => some (c :: a, r)
      | none => none

mutual

/-- Fuel-indexed parser for one JSON value (whitespace before the value already
consumed by the caller). -/
def parseVal : Nat → Str → Option (Json × Str)
  | 0, _ => none
  | _ + 1, [] => none
  | fuel + 1, c :: cs =>
    if c = '\x22' then
      match parseStrChars cs with
      | some (a, r) => some (.str a, r)
      | none => none
    else if c = 'n' then
      if beginsWith ("ull".data) cs then some (.null, List.drop 3 cs) else none
    else if c = 't' then
      if beginsWith ("rue".data) cs then some (.bool true, List.drop 3 cs) else none
    else if c = 'f' then
      if beginsWith ("alse".data) cs then some (.bool false, List.drop 4 cs) else none
    else if c = '-' then
      match parseNat cs with
      | some (n, r) => some (.num (-(n : Int)), r)
      | none => none
    else if c.isDigit then
      match parseNat (c :: cs) with
      | some (n, r) => some (.num (n : Int), r)
      | none => none
    else if c = '[' then
      match dropWs cs with
      | ']' :: r => some (.arr [], r)
      | r =>
        match parseItems fuel r with
        | some (xs, r2) => some (.arr xs, r2)
        | none => none
    else if c = '{' then
      match dropWs cs with
      | '}' :: r => some (.obj [], r)
      | r =>
        match parseFields fuel r with
        | some (fs, r2) => some (.obj fs, r2)
        | none => none
    else none

/-- Comma-separated array items, terminated by a closing bracket. -/
def parseItems : Nat → Str → Option (List Json × Str)
  | 0, _ => none
  | fuel + 1, s =>
    match parseVal fuel s with
    | some (j, r) =>
      match dropWs r with
      | ',' :: r2 =>
        match parseItems fuel (dropWs r2) with
        | some (xs, r3) => some (j :: xs, r3)
        | none => none
      | ']' :: r2 => some ([j], r2)
      | _ => none
    | none => none

/-- Comma-separated `"key": value` object fields, terminated by a closing brace. -/
def parseFields : Nat → Str → Option (List (Str × Json) × Str)
  | 0, _ => none
  | fuel + 1, s =>
    match s with
    | [] => none
    | c :: cs =>
      if c = '\x22' then
        match parseStrChars cs with
        | some (k, r) =>
          match dropWs r with
          | ':' :: r2 =>
            match parseVal fuel (dropWs r2) with
            | some (v, r3) =>
              match dropWs r3 with
              | ',' :: r4 =>
                match parseFields fuel (dropWs r4) with
                | some (fs, r5) => some ((k, v) :: fs, r5)
                | none => none
              | '}' :: r4 => some ([(k, v)], r4)
              | _ => none
            | none => none
          | _ => none
        | none => none
      else none

end

/-- Model of Python `json.loads`: parse one JSON document and require that only
whitespace remains; any other input raises `JSONDecodeError`, modelled as `none`. -/
def json_loads (s : Str) : Option Json :=
  match parseVal (2 * s.length + 2) (dropWs s) with
  | some (j, rest) => if dropWs rest = [] then some j else none
  | none => none

/- ======================================================================
   Pydantic models — src/modules/models.py
   ====================================================================== -/

/-- `SeoElements` (src/modules/models.py lines 6-11): four required fields. -/
structure SeoElements where
  title : Str
  meta_description : Str
  tags : List Str
  keywords : List Str
deriving DecidableEq

/-- `FaqItem` (src/modules/models.py lines 14-17). -/
structure FaqItem where
  question : Str
  answer : Str
deriving DecidableEq

/-- `SocialMediaPosts` (src/modules/models.py lines 20-24). -/
structure SocialMediaPosts where
  twitter : Str
  linkedin : Str
  instagram : Str
deriving DecidableEq

/-- `BlogQuote` (src/modules/models.py lines 27-30): `speaker` is optional and
defaults to `None`. -/
structure BlogQuote where
  quote : Str
  speaker : Option Str
deriving DecidableEq

/-- A JSON value accepted for a required pydantic `str` field (pydantic v2 does not
coerce numbers or booleans to strings). -/
def asStr : Json → Option Str
  | .str s => some s
  | _ => none

/-- A JSON value accepted for a required pydantic `List[str]` field. -/
def asStrList : Json → Option (List Str)
  | .arr xs => xs.mapM asStr
  | _ => none

/-- Model of key access on a dict built by `json.loads`: a duplicated key keeps the
last value, so the lookup prefers later entries. -/
def jsonGet (fields : List (Str × Json)) (key : Str) : Option Json :=
  match fields with
  | [] => none
  | (k, v) :: rest =>
    match jsonGet rest key with
    | some v2 => some v2
    | none => if k = key then some v else none

/-- Model of `SeoElements(**parsed_json)`: requires a JSON object with the four
required fields of the right types; extra keys are ignored (pydantic default);
any other shape raises, modelled as `none`. -/
def validateSeo : Json → Option SeoElements
  | .obj fields => do
    let t ← jsonGet fields ("title".data) >>= asStr
    let m ← jsonGet fields ("meta_description".data) >>= asStr
    let tg ← jsonGet fields ("tags".data) >>= asStrList
    let kw ← jsonGet fields ("keywords".data) >>= asStrList
    pure ⟨t, m, tg, kw⟩
  | _ => none

/-- Model of `FaqItem(**item)`: requires a JSON object with string `question` and
`answer`; a non-object item makes the `**` unpacking raise, modelled as `none`. -/
def validateFaqItem : Json → Option FaqItem
  | .obj fields => do
    let q ← jsonGet fields ("question".data) >>= asStr
    let a ← jsonGet fields ("answer".data) >>= asStr
    pure ⟨q, a⟩
  | _ => none

/-- Model of `[FaqItem(**item) for item in faq_items]`: requires a JSON array; the
first invalid item raises, modelled as `none` for the whole list. -/
def validateFaqList : Json → Option (List FaqItem)
  | .arr xs => xs.mapM validateFaqItem
  | _ => none

/-- Model of `SocialMediaPosts(**social_data)`. -/
def validateSocial : Json → Option SocialMediaPosts
  | .obj fields => do
    let t ← jsonGet fields ("twitter".data) >>= asStr
    let l ← jsonGet fields ("linkedin".data) >>= asStr
    let i ← jsonGet fields ("instagram".data) >>= asStr
    pure ⟨t, l, i⟩
  | _ => none

/-- Model of `BlogQuote(**quote)`: requires a string `quote`; `speaker` may be
absent or `null` (both give `None`) or a string; any other type raises. -/
def validateQuote : Json → Option BlogQuote
  | .obj fields => do
    let q ← jsonGet fields ("quote".data) >>= asStr
    let sp ←
      match jsonGet fields ("speaker".data) with
      | none => some (none : Option Str)
      | some .null => some (none : Option Str)
      | some (.str s) => some (some s)
      | some _ => none
    pure ⟨q, sp⟩
  | _ => none

/-- Model of `[BlogQuote(**quote) for quote in quotes_data]`. -/
def validateQuoteList : Json → Option (List BlogQuote)
  | .arr xs => xs.mapM validateQuote
  | _ => none

/- ======================================================================
   Renderers — the markdown formatting loops in content_generation.py
   ====================================================================== -/

/-- The FAQ markdown loop (src/modules/content_generation.py lines 146-150). -/
def renderFaq (faqs : List FaqItem) : Str :=
  faqs.foldl
    (fun md faq => md ++ "## ".data ++ faq.question ++ "\n\n".data ++ faq.answer ++ "\n\n".data)
    []

/-- The social-media markdown template (lines 207-212). -/
def renderSocial (p : SocialMediaPosts) : Str :=
  "# Social Media Content\n\n## Twitter Post\n\n".data ++ p.twitter ++
    "\n\n## LinkedIn Post\n\n".data ++ p.linkedin ++
    "\n\n## Instagram Caption\n\n".data ++ p.instagram ++ "\n".data

/-- The quotes markdown loop (lines 310-313): a falsy speaker (absent or the empty
string) renders as `Unknown`. -/
def renderQuotes (qs : List BlogQuote) : Str :=
  qs.foldl
    (fun md q =>
      md ++ "> ".data ++ q.quote ++ "\n>\n> — ".data ++
        (match q.speaker with
          | some s => if s = [] then ("Unknown".data) else s
          | none => "Unknown".data) ++ "\n\n".data)
    ("# Memorable Quotes\n\n".data)

/- ======================================================================
   Generators — src/modules/content_generation.py, src/modules/generate_blog.py
   Each takes the outcome of its single `chain.invoke` call: `.error e` models
   the call raising, `.ok s` a response message whose `content` is `s`.
   ====================================================================== -/

/-- Outcome of `generate_seo_elements`: the validated record (`seo.model_dump()`)
or the error dictionary with keys `error` and `raw_response`. -/
inductive SeoOut where
  | valid (rec : SeoElements)
  | errorRecord (error raw_response : Str)
deriving DecidableEq

/-- Placeholder for `str(e)` of the exception raised while building
`SeoElements(**parsed_json)`; only the presence of an error message is modelled,
not python's exact message text. -/
def seoValidationMsg : Str := "Error processing SEO elements".data

/-- Translation of `generate_seo_elements` (src/modules/content_generation.py lines
34-91). The `chain.invoke` call happens before the `try` block, so a raised call
propagates (`.error`); inside the `try`, the fenced-block candidate is extracted,
parsed and validated, and both failure modes return the error dictionary whose
`raw_response` is the candidate text. -/
def generate_seo_elements (invoke : Except Str Str) : Except Str SeoOut :=
  match invoke with
  | .error e => .error e
  | .ok response_text =>
    let candidate := extract_json_candidate '{' '}' response_text
    .ok
      (match json_loads candidate with
        | none => .errorRecord ("Invalid JSON format".data) candidate
        | some j =>
          match validateSeo j with
          | some rec => .valid rec
          | none => .errorRecord seoValidationMsg candidate)

/-- Translation of `generate_faq` (lines 93-155): the single `chain.invoke` happens
before the `try`; inside it, candidate extraction, `json.loads`, `FaqItem`
validation and markdown rendering; any failure falls back to
`ContentOutput.from_llm_response(result).content`, which for a message object is
its raw content. -/
def generate_faq (invoke : Except Str Str) : Except Str Str :=
  match invoke with
  | .error e => .error e
  | .ok content =>
    let candidate := extract_json_candidate '[' ']' content
    .ok
      (match json_loads candidate >>= validateFaqList with
        | some faqs => renderFaq faqs
        | none => content)

/-- Translation of `generate_social_media` (lines 157-219), same structure as
`generate_faq` with the object-shaped pattern and `SocialMediaPosts`. -/
def generate_social_media (invoke : Except Str Str) : Except Str Str :=
  match invoke with
  | .error e => .error e
  | .ok content =>
    let candidate := extract_json_candidate '{' '}' content
    .ok
      (match json_loads candidate >>= validateSocial with
        | some posts => renderSocial posts
        | none => content)

/-- Translation of `generate_newsletter` (lines 221-254): no parsing or validation;
the response content is wrapped under the newsletter heading. -/
def generate_newsletter (invoke : Except Str Str) : Except Str Str :=
  match invoke with
  | .error e => .error e
  | .ok content => .ok ("# Newsletter Summary\n\n".data ++ content)

/-- Translation of `extract_quotes` (lines 256-320), same structure as
`generate_faq` with `BlogQuote` validation and block-quote rendering. -/
def extract_quotes (invoke : Except Str Str) : Except Str Str :=
  match invoke with
  | .error e => .error e
  | .ok content =>
    let candidate := extract_json_candidate '[' ']' content
    .ok
      (match json_loads candidate >>= validateQuoteList with
        | some quotes => renderQuotes quotes
        | none => content)

/-- Translation of `generate_blog` (src/modules/generate_blog.py lines 9-56).
Within the 10000-character ceiling the function performs one agent invocation
inside a `try` whose `except` clause re-raises, so an invocation error propagates
and a response's content is returned. Beyond the ceiling the code enters the
chunk-summarization loop, whose first iteration evaluates `summary["content"]` on
the message object returned by `chain.invoke` — message objects are not
subscriptable, so this raises `TypeError` (unless the summarization call itself
already raised); either way the call raises before reaching the agent. -/
def generate_blog (transcript : Str) (summaryInvoke agentInvoke : Except Str Str) :
    Except Str Str :=
  if 10000 < transcript.length then
    match summaryInvoke with
    | .error e => .error e
    | .ok _ => .error ("TypeError: message object is not subscriptable".data)
  else
    match agentInvoke with
    | .error e => .error e
    | .ok output => .ok output

/- ======================================================================
   Job pipeline — src/api.py (process_audio, save_output)
   ====================================================================== -/

/-- Stubbed outcomes of the model calls one job can make, one field per call site. -/
structure LLMStub where
  blogSummary : Except Str Str
  blogAgent : Except Str Str
  seo : Except Str Str
  faq : Except Str Str
  social : Except Str Str
  newsletter : Except Str Str
  quotes : Except Str Str

/-- Content written by `save_output`: text, or the dictionary produced by
`generate_seo_elements` (persisted with `format="json"`). -/
inductive ContentVal where
  | text (s : Str)
  | seoDict (d : SeoOut)
deriving DecidableEq

/-- Model of `save_output` (src/api.py lines 215-254): the file is written under
`OUTPUT_DIR` with name `{filename}.{format}`, and the pipeline records
`os.path.basename` of the returned path — exactly this name. -/
def save_output (filename format : Str) : Str := filename ++ ".".data ++ format

/-- Terminal job record (the `job_status[job_id]` value): on failure only status
and error are stored (the partial `output_files` dict is discarded). `saves`
additionally traces the files persisted on disk, in write order. -/
structure JobResult where
  status : Str
  error : Option Str
  files : List (Str × Str)
  saves : List (Str × ContentVal)
deriving DecidableEq

/-- In-flight pipeline state: the `output_files` map (artifact key → file name, in
insertion order) and the trace of files persisted so far. -/
structure PState where
  files : List (Str × Str)
  saves : List (Str × ContentVal)
deriving DecidableEq

/-- The `except` clause of `process_audio` (src/api.py lines 207-213). -/
def failJob (saves : List (Str × ContentVal)) (e : Str) : JobResult :=
  { status := "failed".data, error := some e, files := [], saves := saves }

/-- Python truthiness of `blog_content`: `None` and the empty string are falsy. -/
def truthy : Option Str → Bool
  | none => false
  | some s => !s.isEmpty

/-- The `"blog" in content_types` step (src/api.py lines 160-166). -/
def runBlog (stub : LLMStub) (content_types : List Str) (cleaned output_base : Str)
    (st : PState) : Except (Str × PState) (Option Str × PState) :=
  if ("blog".data) ∈ content_types then
    match generate_blog cleaned stub.blogSummary stub.blogAgent with
    | .error e => .error (e, st)
    | .ok blog_content =>
      let name := save_output (output_base ++ "_".data ++ "blog".data) ("md".data)
      .ok (some blog_content,
        ⟨st.files ++ [("blog".data, name)], st.saves ++ [(name, .text blog_content)]⟩)
  else .ok (none, st)

/-- The `"seo" in content_types and blog_content` step (lines 169-173); the seo
output is saved with `format="json"`. -/
def runSeo (stub : LLMStub) (content_types : List Str) (blog_content : Option Str)
    (output_base : Str) (st : PState) : Except (Str × PState) PState :=
  if ("seo".data ∈ content_types) ∧ truthy blog_content = true then
    match generate_seo_elements stub.seo with
    | .error e => .error (e, st)
    | .ok d =>
      let name := save_output (output_base ++ "_".data ++ "seo".data) ("json".data)
      .ok ⟨st.files ++ [("seo".data, name)], st.saves ++ [(name, .seoDict d)]⟩
  else .ok st

/-- Shared shape of the four remaining steps (lines 175-197): when the guard holds,
run the generator; a raised call fails the job, a returned result is saved as
markdown and recorded under its key. -/
def runTextStep (cond : Prop) [Decidable cond] (gen : Except Str Str) (key : Str)
    (output_base : Str) (st : PState) : Except (Str × PState) PState :=
  if cond then
    match gen with
    | .error e => .error (e, st)
    | .ok content =>
      let name := save_output (output_base ++ "_".data ++ key) ("md".data)
      .ok ⟨st.files ++ [(key, name)], st.saves ++ [(name, .text content)]⟩
  else .ok st

/-- The artifact-generation section of `process_audio` (src/api.py lines 160-205):
the six steps in source order, then the `completed` terminal record; the
surrounding `try` turns a raised step into the `failed` terminal record. -/
def artifactsPhase (stub : LLMStub) (content_types : List Str) (cleaned output_base : Str)
    (st0 : PState) : JobResult :=
  match runBlog stub content_types cleaned output_base st0 with
  | .error (e, st) => failJob st.saves e
  | .ok (blog_content, st1) =>
    match runSeo stub content_types blog_content output_base st1 with
    | .error (e, st) => failJob st.saves e
    | .ok st2 =>
      match runTextStep ("faq".data ∈ content_types) (generate_faq stub.faq)
          ("faq".data) output_base st2 with
      | .error (e, st) => failJob st.saves e
      | .ok st3 =>
        match runTextStep (("social".data ∈ content_types) ∧ truthy blog_content = true)
            (generate_social_media stub.social) ("social".data) output_base st3 with
        | .error (e, st) => failJob st.saves e
        | .ok st4 =>
          match runTextStep (("newsletter".data ∈ content_types) ∧ truthy blog_content = true)
              (generate_newsletter stub.newsletter) ("newsletter".data) output_base st4 with
          | .error (e, st) => failJob st.saves e
          | .ok st5 =>
            match runTextStep ("quotes".data ∈ content_types) (extract_quotes stub.quotes)
                ("quotes".data) output_base st5 with
            | .error (e, st) => failJob st.saves e
            | .ok st6 =>
              { status := "completed".data, error := none,
                files := st6.files, saves := st6.saves }

/-- The artifact kinds `process_audio` recognizes in `content_types`
(src/api.py lines 160-197; also the default of the upload form at line 266). -/
def supported_content_types : List Str :=
  ["blog".data, "seo".data, "faq".data, "social".data, "newsletter".data, "quotes".data]

/-- Translation of `process_audio` (src/api.py lines 113-213). The parameters model
the job's external inputs: `transcription` is the outcome of `load_transcript`
(the transcription service), `stub` the generative-model call outcomes,
`base_filename` the `os.path.splitext(os.path.basename(file_path))[0]` of line
145, and `timestamp` the `datetime.now().strftime(...)` value of line 144 —
computed by the code but never used in any file name, which the model mirrors by
taking and ignoring it. -/
def process_audio (transcription : Except Str Str) (stub : LLMStub)
    (content_types : List Str) (job_id base_filename timestamp : Str) : JobResult :=
  let output_base := job_id ++ "_".data ++ base_filename
  match transcription with
  | .error e => failJob [] e
  | .ok transcript =>
    let cleaned := process_transcript transcript
    let tname := save_output (output_base ++ "_".data ++ "transcript".data) ("md".data)
    artifactsPhase stub content_types cleaned output_base
      ⟨[("transcript".data, tname)], [(tname, .text cleaned)]⟩

/- ======================================================================
   Step lemmas for the pipeline
   ====================================================================== -/

theorem generate_seo_elements_ok (r : Str) : ∃ d, generate_seo_elements (.ok r) = .ok d :=
  ⟨_, rfl⟩

theorem generate_faq_ok (r : Str) : ∃ c, generate_faq (.ok r) = .ok c := ⟨_, rfl⟩

theorem generate_social_media_ok (r : Str) : ∃ c, generate_social_media (.ok r) = .ok c :=
  ⟨_, rfl⟩

theorem generate_newsletter_ok (r : Str) : ∃ c, generate_newsletter (.ok r) = .ok c := ⟨_, rfl⟩

theorem extract_quotes_ok (r : Str) : ∃ c, extract_quotes (.ok r) = .ok c := ⟨_, rfl⟩

theorem generate_blog_ok {transcript : Str} (hlen : transcript.length ≤ 10000) (s2 : Except Str Str)
    (b : Str) : generate_blog transcript s2 (.ok b) = .ok b := by
  simp [generate_blog, Nat.not_lt.mpr hlen]

theorem runTextStep_not {cond : Prop} [Decidable cond] (hc : ¬ cond)
    (gen : Except Str Str) (key ob : Str) (st : PState) :
    runTextStep cond gen key ob st = .ok st := by
  simp [runTextStep, hc]

theorem runTextStep_raise {cond : Prop} [Decidable cond] (hc : cond) {gen : Except Str Str}
    {e : Str} (hg : gen = .error e) (key ob : Str) (st : PState) :
    runTextStep cond gen key ob st = .error (e, st) := by
  simp [runTextStep, hc, hg]

theorem runTextStep_run {cond : Prop} [Decidable cond] (hc : cond) {gen : Except Str Str}
    {c : Str} (hg : gen = .ok c) (key ob : Str) (st : PState) :
    runTextStep cond gen key ob st =
      .ok ⟨st.files ++ [(key, save_output (ob ++ "_".data ++ key) ("md".data))],
        st.saves ++ [(save_output (ob ++ "_".data ++ key) ("md".data), .text c)]⟩ := by
  simp [runTextStep, hc, hg]

theorem runTextStep_isOk {cond : Prop} [Decidable cond] {gen : Except Str Str}
    (hg : cond → ∃ c, gen = .ok c) (key ob : Str) (st : PState) :
    ∃ st2, runTextStep cond gen key ob st = .ok st2 := by
  by_cases hc : cond
  · obtain ⟨c, hce⟩ := hg hc
    exact ⟨_, runTextStep_run hc hce key ob st⟩
  · exact ⟨st, runTextStep_not hc gen key ob st⟩

theorem runTextStep_ok_cases {cond : Prop} [Decidable cond] {gen : Except Str Str}
    {key ob : Str} {st st2 : PState} (h : runTextStep cond gen key ob st = .ok st2) :
    st2 = st ∨
      ∃ c, st2 = ⟨st.files ++ [(key, save_output (ob ++ "_".data ++ key) ("md".data))],
        st.saves ++ [(save_output (ob ++ "_".data ++ key) ("md".data), .text c)]⟩ := by
  by_cases hc : cond
  · cases hgen : gen with
    | error e =>
      rw [runTextStep_raise hc hgen key ob st] at h
      exact absurd h (by simp)
    | ok c =>
      rw [runTextStep_run hc hgen key ob st] at h
      exact Or.inr ⟨c, (Except.ok.inj h).symm⟩
  · rw [runTextStep_not hc gen key ob st] at h
    exact Or.inl (Except.ok.inj h).symm

theorem runTextStep_error_eq {cond : Prop} [Decidable cond] {gen : Except Str Str}
    {key ob : Str} {st st2 : PState} {e : Str}
    (h : runTextStep cond gen key ob st = .error (e, st2)) : st2 = st := by
  by_cases hc : cond
  · cases hgen : gen with
    | error e2 =>
      rw [runTextStep_raise hc hgen key ob st] at h
      have := Except.error.inj h
      exact (congrArg Prod.snd this).symm
    | ok c =>
      rw [runTextStep_run hc hgen key ob st] at h
      exact absurd h (by simp)
  · rw [runTextStep_not hc gen key ob st] at h
    exact absurd h (by simp)

theorem runSeo_not {stub : LLMStub} {cts : List Str} {bopt : Option Str}
    (hc : ¬ (("seo".data ∈ cts) ∧ truthy bopt = true)) (ob : Str) (st : PState) :
    runSeo stub cts bopt ob st = .ok st := by
  simp only [runSeo, if_neg hc]

theorem runSeo_raise {stub : LLMStub} {cts : List Str} {bopt : Option Str}
    (hc : ("seo".data ∈ cts) ∧ truthy bopt = true) {e : Str}
    (hg : generate_seo_elements stub.seo = .error e) (ob : Str) (st : PState) :
    runSeo stub cts bopt ob st = .error (e, st) := by
  simp [runSeo, hc, hg]

theorem runSeo_run {stub : LLMStub} {cts : List Str} {bopt : Option Str}
    (hc : ("seo".data ∈ cts) ∧ truthy bopt = true) {d : SeoOut}
    (hg : generate_seo_elements stub.seo = .ok d) (ob : Str) (st : PState) :
    runSeo stub cts bopt ob st =
      .ok ⟨st.files ++ [("seo".data, save_output (ob ++ "_".data ++ "seo".data) ("json".data))],
        st.saves ++ [(save_output (ob ++ "_".data ++ "seo".data) ("json".data), .seoDict d)]⟩ := by
  simp [runSeo, hc, hg]

theorem runSeo_isOk {stub : LLMStub} {cts : List Str} {bopt : Option Str}
    (hg : ("seo".data ∈ cts) ∧ truthy bopt = true →
      ∃ d, generate_seo_elements stub.seo = .ok d) (ob : Str) (st : PState) :
    ∃ st2, runSeo stub cts bopt ob st = .ok st2 := by
  by_cases hc : ("seo".data ∈ cts) ∧ truthy bopt = true
  · obtain ⟨d, hd⟩ := hg hc
    exact ⟨_, runSeo_run hc hd ob st⟩
  · exact ⟨st, runSeo_not hc ob st⟩

theorem runSeo_ok_cases {stub : LLMStub} {cts : List Str} {bopt : Option Str}
    {ob : Str} {st st2 : PState} (h : runSeo stub cts bopt ob st = .ok st2) :
    st2 = st ∨
      ∃ d, st2 = ⟨st.files ++ [("seo".data, save_output (ob ++ "_".data ++ "seo".data) ("json".data))],
        st.saves ++ [(save_output (ob ++ "_".data ++ "seo".data) ("json".data), .seoDict d)]⟩ := by
  by_cases hc : ("seo".data ∈ cts) ∧ truthy bopt = true
  · cases hgen : generate_seo_elements stub.seo with
    | error e =>
      rw [runSeo_raise hc hgen ob st] at h
      exact absurd h (by simp)
    | ok d =>
      rw [runSeo_run hc hgen ob st] at h
      exact Or.inr ⟨d, (Except.ok.inj h).symm⟩
  · rw [runSeo_not hc ob st] at h
    exact Or.inl (Except.ok.inj h).symm

theorem runSeo_error_eq {stub : LLMStub} {cts : List Str} {bopt : Option Str}
    {ob : Str} {st st2 : PState} {e : Str}
    (h : runSeo stub cts bopt ob st = .error (e, st2)) : st2 = st := by
  by_cases hc : ("seo".data ∈ cts) ∧ truthy bopt = true
  · cases hgen : generate_seo_elements stub.seo with
    | error e2 =>
      rw [runSeo_raise hc hgen ob st] at h
      have := Except.error.inj h
      exact (congrArg Prod.snd this).symm
    | ok d =>
      rw [runSeo_run hc hgen ob st] at h
      exact absurd h (by simp)
  · rw [runSeo_not hc ob st] at h
    exact absurd h (by simp)

theorem runBlog_not {cts : List Str} (hc : "blog".data ∉ cts) (stub : LLMStub)
    (cleaned ob : Str) (st : PState) :
    runBlog stub cts cleaned ob st = .ok (none, st) := by
  simp [runBlog, hc]

theorem runBlog_raise {cts : List Str} (hc : "blog".data ∈ cts) {stub : LLMStub}
    {cleaned e : Str} (hg : generate_blog cleaned stub.blogSummary stub.blogAgent = .error e)
    (ob : Str) (st : PState) :
    runBlog stub cts cleaned ob st = .error (e, st) := by
  simp [runBlog, hc, hg]

theorem runBlog_run {cts : List Str} (hc : "blog".data ∈ cts) {stub : LLMStub}
    {cleaned b : Str} (hg : generate_blog cleaned stub.blogSummary stub.blogAgent = .ok b)
    (ob : Str) (st : PState) :
    runBlog stub cts cleaned ob st =
      .ok (some b,
        ⟨st.files ++ [("blog".data, save_output (ob ++ "_".data ++ "blog".data) ("md".data))],
          st.saves ++ [(save_output (ob ++ "_".data ++ "blog".data) ("md".data), .text b)]⟩) := by
  simp [runBlog, hc, hg]

theorem runBlog_isOk {stub : LLMStub} {cts : List Str} {cleaned : Str}
    (hg : "blog".data ∈ cts → ∃ b, generate_blog cleaned stub.blogSummary stub.blogAgent = .ok b)
    (ob : Str) (st : PState) :
    ∃ bopt st2, runBlog stub cts cleaned ob st = .ok (bopt, st2) := by
  by_cases hc : "blog".data ∈ cts
  · obtain ⟨b, hb⟩ := hg hc
    exact ⟨some b, _, runBlog_run hc hb ob st⟩
  · exact ⟨none, st, runBlog_not hc stub cleaned ob st⟩

theorem runBlog_ok_cases {stub : LLMStub} {cts : List Str} {cleaned ob : Str}
    {st st2 : PState} {bopt : Option Str}
    (h : runBlog stub cts cleaned ob st = .ok (bopt, st2)) :
    st2 = st ∨
      ∃ b, st2 = ⟨st.files ++ [("blog".data, save_output (ob ++ "_".data ++ "blog".data) ("md".data))],
        st.saves ++ [(save_output (ob ++ "_".data ++ "blog".data) ("md".data), .text b)]⟩ := by
  by_cases hc : "blog".data ∈ cts
  · cases hgen : generate_blog cleaned stub.blogSummary stub.blogAgent with
    | error e =>
      rw [runBlog_raise hc hgen ob st] at h
      exact absurd h (by simp)
    | ok b =>
      rw [runBlog_run hc hgen ob st] at h
      have := Except.ok.inj h
      exact Or.inr ⟨b, (congrArg Prod.snd this).symm⟩
  · rw [runBlog_not hc stub cleaned ob st] at h
    have := Except.ok.inj h
    exact Or.inl (congrArg Prod.snd this).symm

theorem runBlog_error_eq {stub : LLMStub} {cts : List Str} {cleaned ob : Str}
    {st st2 : PState} {e : Str}
    (h : runBlog stub cts cleaned ob st = .error (e, st2)) : st2 = st := by
  by_cases hc : "blog".data ∈ cts
  · cases hgen : generate_blog cleaned stub.blogSummary stub.blogAgent with
    | error e2 =>
      rw [runBlog_raise hc hgen ob st] at h
      have := Except.error.inj h
      exact (congrArg Prod.snd this).symm
    | ok b =>
      rw [runBlog_run hc hgen ob st] at h
      exact absurd h (by simp)
  · rw [runBlog_not hc stub cleaned ob st] at h
    exact absurd h (by simp)

/- ======================================================================
   Pipeline-wide invariants
   ====================================================================== -/

/-- The extension of the persisted-file name by the artifact kind
(`ext` = `json` for `seo`, `md` otherwise). -/
def kindExt (k : Str) : Str := if k = "seo".data then ("json".data) else ("md".data)

/-- A persisted entry whose name follows the pipeline's naming scheme for some
supported artifact kind. -/
def savedShape (ob : Str) (nv : Str × ContentVal) : Prop :=
  ∃ k, k ∈ supported_content_types ∧ nv.1 = save_output (ob ++ "_".data ++ k) (kindExt k)

/-- One or more pipeline steps turn `st` into `st2`: both the files map and the
saves trace only grow, appended file keys are supported kinds, and appended saved
names follow the naming scheme. -/
def StepExtends (ob : Str) (st st2 : PState) : Prop :=
  (∃ ss, st2.saves = st.saves ++ ss ∧ ∀ nv ∈ ss, savedShape ob nv) ∧
  (∃ fs, st2.files = st.files ++ fs ∧ ∀ kv ∈ fs, kv.1 ∈ supported_content_types)

theorem stepExtends_refl (ob : Str) (st : PState) : StepExtends ob st st :=
  ⟨⟨[], by simp, by simp⟩, ⟨[], by simp, by simp⟩⟩

theorem stepExtends_trans {ob : Str} {a b c : PState}
    (h1 : StepExtends ob a b) (h2 : StepExtends ob b c) : StepExtends ob a c := by
  obtain ⟨⟨s1, hs1, hm1⟩, ⟨f1, hf1, hk1⟩⟩ := h1
  obtain ⟨⟨s2, hs2, hm2⟩, ⟨f2, hf2, hk2⟩⟩ := h2
  refine ⟨⟨s1 ++ s2, ?_, ?_⟩, ⟨f1 ++ f2, ?_, ?_⟩⟩
  · rw [hs2, hs1, List.append_assoc]
  · intro nv hnv
    rcases List.mem_append.mp hnv with h | h
    · exact hm1 nv h
    · exact hm2 nv h
  · rw [hf2, hf1, List.append_assoc]
  · intro kv hkv
    rcases List.mem_append.mp hkv with h | h
    · exact hk1 kv h
    · exact hk2 kv h

theorem runTextStep_extends {cond : Prop} [Decidable cond] {gen : Except Str Str}
    {key ob : Str} {st st2 : PState}
    (hkey : key ∈ supported_content_types) (hkne : ¬ key = "seo".data)
    (h : runTextStep cond gen key ob st = .ok st2) : StepExtends ob st st2 := by
  rcases runTextStep_ok_cases h with rfl | ⟨c, rfl⟩
  · exact stepExtends_refl ob _
  · refine ⟨⟨_, rfl, ?_⟩, ⟨_, rfl, ?_⟩⟩
    · intro nv hnv
      rw [List.mem_singleton] at hnv
      subst hnv
      exact ⟨key, hkey, by simp [kindExt, hkne]⟩
    · intro kv hkv
      rw [List.mem_singleton] at hkv
      subst hkv
      exact hkey

theorem runSeo_extends {stub : LLMStub} {cts : List Str} {bopt : Option Str}
    {ob : Str} {st st2 : PState} (h : runSeo stub cts bopt ob st = .ok st2) :
    StepExtends ob st st2 := by
  rcases runSeo_ok_cases h with rfl | ⟨d, rfl⟩
  · exact stepExtends_refl ob _
  · refine ⟨⟨_, rfl, ?_⟩, ⟨_, rfl, ?_⟩⟩
    · intro nv hnv
      rw [List.mem_singleton] at hnv
      subst hnv
      exact ⟨"seo".data, by decide, by simp [kindExt]⟩
    · intro kv hkv
      rw [List.mem_singleton] at hkv
      subst hkv
      show ("seo".data) ∈ supported_content_types
      decide

theorem runBlog_extends {stub : LLMStub} {cts : List Str} {cleaned ob : Str}
    {st st2 : PState} {bopt : Option Str}
    (h : runBlog stub cts cleaned ob st = .ok (bopt, st2)) : StepExtends ob st st2 := by
  rcases runBlog_ok_cases h with rfl | ⟨b, rfl⟩
  · exact stepExtends_refl ob _
  · refine ⟨⟨_, rfl, ?_⟩, ⟨_, rfl, ?_⟩⟩
    · intro nv hnv
      rw [List.mem_singleton] at hnv
      subst hnv
      exact ⟨"blog".data, by decide, by simp [kindExt]⟩
    · intro kv hkv
      rw [List.mem_singleton] at hkv
      subst hkv
      show ("blog".data) ∈ supported_content_types
      decide

/-- Either the job completes with a final state extending the initial one, or some
step raised and the terminal record is `failJob` over the saves accumulated so
far — which also extend the initial ones. -/
theorem artifactsPhase_cases (stub : LLMStub) (cts : List Str) (cleaned ob : Str)
    (st0 : PState) :
    (∃ st2, StepExtends ob st0 st2 ∧ artifactsPhase stub cts cleaned ob st0 =
      { status := "completed".data, error := none, files := st2.files, saves := st2.saves }) ∨
    (∃ st2 e, StepExtends ob st0 st2 ∧
      artifactsPhase stub cts cleaned ob st0 = failJob st2.saves e) := by
  cases h1 : runBlog stub cts cleaned ob st0 with
  | error p =>
    obtain ⟨e, st⟩ := p
    right
    refine ⟨st, e, ?_, by simp only [artifactsPhase, h1]⟩
    rw [runBlog_error_eq h1]
    exact stepExtends_refl ob st0
  | ok q =>
    obtain ⟨bopt, st1⟩ := q
    have ext1 := runBlog_extends h1
    cases h2 : runSeo stub cts bopt ob st1 with
    | error p =>
      obtain ⟨e, st⟩ := p
      right
      refine ⟨st1, e, ext1, ?_⟩
      have hst := runSeo_error_eq h2
      subst hst
      simp only [artifactsPhase, h1, h2]
    | ok st2 =>
      have ext2 := stepExtends_trans ext1 (runSeo_extends h2)
      cases h3 : runTextStep ("faq".data ∈ cts) (generate_faq stub.faq)
          ("faq".data) ob st2 with
      | error p =>
        obtain ⟨e, st⟩ := p
        right
        refine ⟨st2, e, ext2, ?_⟩
        have hst := runTextStep_error_eq h3
        subst hst
        simp only [artifactsPhase, h1, h2, h3]
      | ok st3 =>
        have ext3 := stepExtends_trans ext2 (runTextStep_extends (by decide) (by decide) h3)
        cases h4 : runTextStep (("social".data ∈ cts) ∧ truthy bopt = true)
            (generate_social_media stub.social) ("social".data) ob st3 with
        | error p =>
          obtain ⟨e, st⟩ := p
          right
          refine ⟨st3, e, ext3, ?_⟩
          have hst := runTextStep_error_eq h4
          subst hst
          simp only [artifactsPhase, h1, h2, h3, h4]
        | ok st4 =>
          have ext4 := stepExtends_trans ext3 (runTextStep_extends (by decide) (by decide) h4)
          cases h5 : runTextStep (("newsletter".data ∈ cts) ∧ truthy bopt = true)
              (generate_newsletter stub.newsletter) ("newsletter".data) ob st4 with
          | error p =>
            obtain ⟨e, st⟩ := p
            right
            refine ⟨st4, e, ext4, ?_⟩
            have hst := runTextStep_error_eq h5
            subst hst
            simp only [artifactsPhase, h1, h2, h3, h4, h5]
          | ok st5 =>
            have ext5 := stepExtends_trans ext4 (runTextStep_extends (by decide) (by decide) h5)
            cases h6 : runTextStep ("quotes".data ∈ cts) (extract_quotes stub.quotes)
                ("quotes".data) ob st5 with
            | error p =>
              obtain ⟨e, st⟩ := p
              right
              refine ⟨st5, e, ext5, ?_⟩
              have hst := runTextStep_error_eq h6
              subst hst
              simp only [artifactsPhase, h1, h2, h3, h4, h5, h6]
            | ok st6 =>
              have ext6 := stepExtends_trans ext5 (runTextStep_extends (by decide) (by decide) h6)
              left
              exact ⟨st6, ext6, by simp only [artifactsPhase, h1, h2, h3, h4, h5, h6]⟩

theorem artifactsPhase_completes {stub : LLMStub} {cts : List Str} {cleaned : Str}
    (hblog : "blog".data ∈ cts →
      ∃ b, generate_blog cleaned stub.blogSummary stub.blogAgent = .ok b)
    (hseo : "seo".data ∈ cts → ∃ d, generate_seo_elements stub.seo = .ok d)
    (hfaq : "faq".data ∈ cts → ∃ c, generate_faq stub.faq = .ok c)
    (hsoc : "social".data ∈ cts → ∃ c, generate_social_media stub.social = .ok c)
    (hnews : "newsletter".data ∈ cts → ∃ c, generate_newsletter stub.newsletter = .ok c)
    (hq : "quotes".data ∈ cts → ∃ c, extract_quotes stub.quotes = .ok c)
    (ob : Str) (st0 : PState) :
    (artifactsPhase stub cts cleaned ob st0).status = "completed".data ∧
    (artifactsPhase stub cts cleaned ob st0).error = none := by
  obtain ⟨bopt, st1, h1⟩ := runBlog_isOk hblog ob st0
  obtain ⟨st2, h2⟩ := @runSeo_isOk stub cts bopt (fun hc => hseo hc.1) ob st1
  obtain ⟨st3, h3⟩ := runTextStep_isOk hfaq ("faq".data) ob st2
  obtain ⟨st4, h4⟩ :=
    @runTextStep_isOk (("social".data ∈ cts) ∧ truthy bopt = true) _ _
      (fun hc => hsoc hc.1) ("social".data) ob st3
  obtain ⟨st5, h5⟩ :=
    @runTextStep_isOk (("newsletter".data ∈ cts) ∧ truthy bopt = true) _ _
      (fun hc => hnews hc.1) ("newsletter".data) ob st4
  obtain ⟨st6, h6⟩ := runTextStep_isOk hq ("quotes".data) ob st5
  simp [artifactsPhase, h1, h2, h3, h4, h5, h6]

theorem dictGetStr_cons_ne {key k : Str} (h : ¬ key = k) (v : Str) (l : List (Str × Str)) :
    dictGetStr key ((k, v) :: l) = dictGetStr key l := by
  simp [dictGetStr, h]

theorem dictGetStr_cons_eq (key v : Str) (l : List (Str × Str)) :
    dictGetStr key ((key, v) :: l) = some v := by
  simp [dictGetStr]

/- ======================================================================
   Concrete stubs for witnesses and counterexamples
   ====================================================================== -/

/-- A stub whose every model call raises. -/
def stubAllErr : LLMStub :=
  ⟨.error ("boom".data), .error ("boom".data), .error ("boom".data), .error ("boom".data),
   .error ("boom".data), .error ("boom".data), .error ("boom".data)⟩

/-- A stub whose every model call returns a short non-JSON response. -/
def stubAllOk : LLMStub :=
  ⟨.ok ("s".data), .ok ("b".data), .ok ("x".data), .ok ("x".data),
   .ok ("x".data), .ok ("x".data), .ok ("x".data)⟩

/- ======================================================================
   Claim C1
   ====================================================================== -/

/-- C1 (amended): exceptions raised while processing a model response (JSON parsing,
schema validation, rendering) are caught inside the generators and converted into
error artifacts or raw-content fallbacks, so they never abort the job: whenever
transcription succeeds and every model call made returns a response (and a
requested blog's transcript stays within the summarization ceiling), the job ends
`completed` whatever the responses' contents. An exception from a model call
itself, or any exception inside blog generation, is however not caught at the
generation call site: it propagates to the job boundary and the job ends `failed`
(see the counterexample). -/
theorem c1_output_failures_never_abort (t : Str) (stub : LLMStub) (cts : List Str)
    (jid base ts : Str)
    (hblog : "blog".data ∈ cts →
      (process_transcript t).length ≤ 10000 ∧ ∃ b, stub.blogAgent = .ok b)
    (hseo : "seo".data ∈ cts → ∃ r, stub.seo = .ok r)
    (hfaq : "faq".data ∈ cts → ∃ r, stub.faq = .ok r)
    (hsoc : "social".data ∈ cts → ∃ r, stub.social = .ok r)
    (hnews : "newsletter".data ∈ cts → ∃ r, stub.newsletter = .ok r)
    (hq : "quotes".data ∈ cts → ∃ r, stub.quotes = .ok r) :
    (process_audio (.ok t) stub cts jid base ts).status = "completed".data ∧
    (process_audio (.ok t) stub cts jid base ts).error = none := by
  apply artifactsPhase_completes
  · intro hb
    obtain ⟨hlen, b, hagent⟩ := hblog hb
    rw [hagent]
    exact ⟨b, generate_blog_ok hlen stub.blogSummary b⟩
  · intro hb
    obtain ⟨r, hr⟩ := hseo hb
    rw [hr]
    exact generate_seo_elements_ok r
  · intro hb
    obtain ⟨r, hr⟩ := hfaq hb
    rw [hr]
    exact generate_faq_ok r
  · intro hb
    obtain ⟨r, hr⟩ := hsoc hb
    rw [hr]
    exact generate_social_media_ok r
  · intro hb
    obtain ⟨r, hr⟩ := hnews hb
    rw [hr]
    exact generate_newsletter_ok r
  · intro hb
    obtain ⟨r, hr⟩ := hq hb
    rw [hr]
    exact extract_quotes_ok r

/-- C1 witness: all six kinds requested against a stub whose calls all return short
non-JSON text, so every structured parse fails; the job still completes. -/
theorem c1_output_failures_never_abort_witness :
    (process_audio (.ok ("hello world".data)) stubAllOk supported_content_types
        ("j1".data) ("ep".data) ("ts".data)).status = "completed".data ∧
    (process_audio (.ok ("hello world".data)) stubAllOk supported_content_types
        ("j1".data) ("ep".data) ("ts".data)).error = none :=
  c1_output_failures_never_abort ("hello world".data) stubAllOk supported_content_types
    ("j1".data) ("ep".data) ("ts".data)
    (fun _ => ⟨by decide, "b".data, rfl⟩)
    (fun _ => ⟨"x".data, rfl⟩) (fun _ => ⟨"x".data, rfl⟩) (fun _ => ⟨"x".data, rfl⟩)
    (fun _ => ⟨"x".data, rfl⟩) (fun _ => ⟨"x".data, rfl⟩)

/-- C1 counterexample: `faq` is the only requested kind and its model call raises;
the exception is not caught at the generation call site and not converted into an
error artifact — the whole job aborts and ends `failed`, not `completed`. -/
theorem c1_counterexample :
    (process_audio (.ok ("t".data)) stubAllErr ["faq".data] ("j1".data) ("ep".data)
        ("ts".data)).status = "failed".data ∧
    ¬ (process_audio (.ok ("t".data)) stubAllErr ["faq".data] ("j1".data) ("ep".data)
        ("ts".data)).status = "completed".data ∧
    (process_audio (.ok ("t".data)) stubAllErr ["faq".data] ("j1".data) ("ep".data)
        ("ts".data)).error = some ("boom".data) := by
  refine ⟨by decide, by decide, by decide⟩

/- ======================================================================
   Claim C2
   ====================================================================== -/

/-- C2 (amended): when `blog` is not among the requested kinds, none of `seo`,
`social`, `newsletter` is generated or marked failed — they are silently absent
from the files map; provided transcription succeeded and any requested independent
kinds (`faq`, `quotes`) got model responses, the job ends `completed`, and when no
independent kind was requested the files map holds only the transcript entry. -/
theorem artifactsPhase_no_blog {stub : LLMStub} {cts : List Str}
    (hnb : "blog".data ∉ cts)
    (hfaq : "faq".data ∈ cts → ∃ r, stub.faq = .ok r)
    (hq : "quotes".data ∈ cts → ∃ r, stub.quotes = .ok r)
    (cleaned ob : Str) (st0 : PState) :
    (artifactsPhase stub cts cleaned ob st0).status = "completed".data ∧
    (artifactsPhase stub cts cleaned ob st0).error = none ∧
    ∃ fext, (artifactsPhase stub cts cleaned ob st0).files = st0.files ++ fext ∧
      (∀ kv ∈ fext, kv.1 = "faq".data ∨ kv.1 = "quotes".data) ∧
      ("faq".data ∉ cts → "quotes".data ∉ cts → fext = []) := by
  have hg2 : ¬ (("seo".data ∈ cts) ∧ truthy (none : Option Str) = true) := by simp [truthy]
  have hg4 : ¬ (("social".data ∈ cts) ∧ truthy (none : Option Str) = true) := by simp [truthy]
  have hg5 : ¬ (("newsletter".data ∈ cts) ∧ truthy (none : Option Str) = true) := by simp [truthy]
  have h1 := runBlog_not hnb stub cleaned ob st0
  have h2 := @runSeo_not stub cts none hg2 ob st0
  by_cases hf : "faq".data ∈ cts
  · obtain ⟨r, hr⟩ := hfaq hf
    obtain ⟨c, hc⟩ : ∃ c, generate_faq stub.faq = .ok c := by
      rw [hr]; exact generate_faq_ok r
    have h3 := runTextStep_run hf hc ("faq".data) ob st0
    have h4 := runTextStep_not hg4 (generate_social_media stub.social) ("social".data) ob
      ⟨st0.files ++ [("faq".data, save_output (ob ++ "_".data ++ "faq".data) ("md".data))],
        st0.saves ++ [(save_output (ob ++ "_".data ++ "faq".data) ("md".data), .text c)]⟩
    have h5 := runTextStep_not hg5 (generate_newsletter stub.newsletter) ("newsletter".data) ob
      ⟨st0.files ++ [("faq".data, save_output (ob ++ "_".data ++ "faq".data) ("md".data))],
        st0.saves ++ [(save_output (ob ++ "_".data ++ "faq".data) ("md".data), .text c)]⟩
    by_cases hqc : "quotes".data ∈ cts
    · obtain ⟨r2, hr2⟩ := hq hqc
      obtain ⟨d, hd⟩ : ∃ d, extract_quotes stub.quotes = .ok d := by
        rw [hr2]; exact extract_quotes_ok r2
      have h6 := runTextStep_run hqc hd ("quotes".data) ob
        ⟨st0.files ++ [("faq".data, save_output (ob ++ "_".data ++ "faq".data) ("md".data))],
          st0.saves ++ [(save_output (ob ++ "_".data ++ "faq".data) ("md".data), .text c)]⟩
      refine ⟨?_, ?_, ?_⟩
      · simp only [artifactsPhase, h1, h2, h3, h4, h5, h6]
      · simp only [artifactsPhase, h1, h2, h3, h4, h5, h6]
      · refine ⟨[("faq".data, save_output (ob ++ "_".data ++ "faq".data) ("md".data)),
          ("quotes".data, save_output (ob ++ "_".data ++ "quotes".data) ("md".data))], ?_, ?_, ?_⟩
        · simp only [artifactsPhase, h1, h2, h3, h4, h5, h6]
          simp [List.append_assoc]
        · intro kv hkv
          rcases List.mem_cons.mp hkv with h | h
          · left; rw [h]
          · rw [List.mem_singleton] at h
            right; rw [h]
        · intro hnf _
          exact absurd hf hnf
    · have h6 := runTextStep_not hqc (extract_quotes stub.quotes) ("quotes".data) ob
        ⟨st0.files ++ [("faq".data, save_output (ob ++ "_".data ++ "faq".data) ("md".data))],
          st0.saves ++ [(save_output (ob ++ "_".data ++ "faq".data) ("md".data), .text c)]⟩
      refine ⟨?_, ?_, ?_⟩
      · simp only [artifactsPhase, h1, h2, h3, h4, h5, h6]
      · simp only [artifactsPhase, h1, h2, h3, h4, h5, h6]
      · refine ⟨[("faq".data, save_output (ob ++ "_".data ++ "faq".data) ("md".data))], ?_, ?_, ?_⟩
        · simp only [artifactsPhase, h1, h2, h3, h4, h5, h6]
        · intro kv hkv
          rw [List.mem_singleton] at hkv
          left; rw [hkv]
        · intro hnf _
          exact absurd hf hnf
  · have h3 := runTextStep_not hf (generate_faq stub.faq) ("faq".data) ob st0
    have h4 := runTextStep_not hg4 (generate_social_media stub.social) ("social".data) ob st0
    have h5 := runTextStep_not hg5 (generate_newsletter stub.newsletter) ("newsletter".data) ob st0
    by_cases hqc : "quotes".data ∈ cts
    · obtain ⟨r2, hr2⟩ := hq hqc
      obtain ⟨d, hd⟩ : ∃ d, extract_quotes stub.quotes = .ok d := by
        rw [hr2]; exact extract_quotes_ok r2
      have h6 := runTextStep_run hqc hd ("quotes".data) ob st0
      refine ⟨?_, ?_, ?_⟩
      · simp only [artifactsPhase, h1, h2, h3, h4, h5, h6]
      · simp only [artifactsPhase, h1, h2, h3, h4, h5, h6]
      · refine ⟨[("quotes".data, save_output (ob ++ "_".data ++ "quotes".data) ("md".data))],
          ?_, ?_, ?_⟩
        · simp only [artifactsPhase, h1, h2, h3, h4, h5, h6]
        · intro kv hkv
          rw [List.mem_singleton] at hkv
          right; rw [hkv]
        · intro _ hnq
          exact absurd hqc hnq
    · have h6 := runTextStep_not hqc (extract_quotes stub.quotes) ("quotes".data) ob st0
      refine ⟨?_, ?_, ?_⟩
      · simp only [artifactsPhase, h1, h2, h3, h4, h5, h6]
      · simp only [artifactsPhase, h1, h2, h3, h4, h5, h6]
      · exact ⟨[], by simp only [artifactsPhase, h1, h2, h3, h4, h5, h6]; simp, by simp,
          fun _ _ => rfl⟩

theorem c2_blog_dependents_skipped (t : Str) (stub : LLMStub) (cts : List Str)
    (jid base ts : Str)
    (hnb : "blog".data ∉ cts)
    (hfaq : "faq".data ∈ cts → ∃ r, stub.faq = .ok r)
    (hq : "quotes".data ∈ cts → ∃ r, stub.quotes = .ok r) :
    (process_audio (.ok t) stub cts jid base ts).status = "completed".data ∧
    (process_audio (.ok t) stub cts jid base ts).error = none ∧
    dictGetStr ("seo".data) (process_audio (.ok t) stub cts jid base ts).files = none ∧
    dictGetStr ("social".data) (process_audio (.ok t) stub cts jid base ts).files = none ∧
    dictGetStr ("newsletter".data) (process_audio (.ok t) stub cts jid base ts).files = none ∧
    ("faq".data ∉ cts → "quotes".data ∉ cts →
      (process_audio (.ok t) stub cts jid base ts).files =
        [("transcript".data,
          save_output (jid ++ "_".data ++ base ++ "_".data ++ "transcript".data) ("md".data))]) := by
  have hred : process_audio (.ok t) stub cts jid base ts =
      artifactsPhase stub cts (process_transcript t) (jid ++ "_".data ++ base)
        ⟨[("transcript".data,
            save_output (jid ++ "_".data ++ base ++ "_".data ++ "transcript".data) ("md".data))],
          [(save_output (jid ++ "_".data ++ base ++ "_".data ++ "transcript".data) ("md".data),
            ContentVal.text (process_transcript t))]⟩ := rfl
  obtain ⟨hst, herr, fext, hfl, hkeys, hempty⟩ :=
    artifactsPhase_no_blog hnb hfaq hq (process_transcript t) (jid ++ "_".data ++ base)
      ⟨[("transcript".data,
          save_output (jid ++ "_".data ++ base ++ "_".data ++ "transcript".data) ("md".data))],
        [(save_output (jid ++ "_".data ++ base ++ "_".data ++ "transcript".data) ("md".data),
          ContentVal.text (process_transcript t))]⟩
  rw [hred]
  have hnone : ∀ key : Str, ¬ key = "transcript".data →
      ¬ key = "faq".data → ¬ key = "quotes".data →
      dictGetStr key (artifactsPhase stub cts (process_transcript t) (jid ++ "_".data ++ base)
        ⟨[("transcript".data,
            save_output (jid ++ "_".data ++ base ++ "_".data ++ "transcript".data) ("md".data))],
          [(save_output (jid ++ "_".data ++ base ++ "_".data ++ "transcript".data) ("md".data),
            ContentVal.text (process_transcript t))]⟩).files = none := by
    intro key hkt hkf hkq
    rw [hfl]
    apply dictGetStr_eq_none
    intro kv hkv
    rcases List.mem_append.mp hkv with h | h
    · rw [List.mem_singleton] at h
      rw [h]
      exact hkt
    · rcases hkeys kv h with h2 | h2
      · rw [h2]; exact hkf
      · rw [h2]; exact hkq
  refine ⟨hst, herr, hnone ("seo".data) (by decide) (by decide) (by decide),
    hnone ("social".data) (by decide) (by decide) (by decide),
    hnone ("newsletter".data) (by decide) (by decide) (by decide), ?_⟩
  intro hnf hnq
  rw [hfl, hempty hnf hnq, List.append_nil]

/-- C2 witness: kinds `[seo, newsletter]` without `blog` — the job completes, the
files map has no seo, social or newsletter entry and holds only the transcript. -/
theorem c2_witness :
    (process_audio (.ok ("t".data)) stubAllOk ["seo".data, "newsletter".data] ("j2".data)
        ("ep".data) ("ts".data)).status = "completed".data ∧
    (process_audio (.ok ("t".data)) stubAllOk ["seo".data, "newsletter".data] ("j2".data)
        ("ep".data) ("ts".data)).error = none ∧
    dictGetStr ("seo".data) (process_audio (.ok ("t".data)) stubAllOk
        ["seo".data, "newsletter".data] ("j2".data) ("ep".data) ("ts".data)).files = none ∧
    dictGetStr ("social".data) (process_audio (.ok ("t".data)) stubAllOk
        ["seo".data, "newsletter".data] ("j2".data) ("ep".data) ("ts".data)).files = none ∧
    dictGetStr ("newsletter".data) (process_audio (.ok ("t".data)) stubAllOk
        ["seo".data, "newsletter".data] ("j2".data) ("ep".data) ("ts".data)).files = none ∧
    ("faq".data ∉ (["seo".data, "newsletter".data] : List Str) →
      "quotes".data ∉ (["seo".data, "newsletter".data] : List Str) →
      (process_audio (.ok ("t".data)) stubAllOk ["seo".data, "newsletter".data] ("j2".data)
          ("ep".data) ("ts".data)).files =
        [("transcript".data,
          save_output ("j2".data ++ "_".data ++ "ep".data ++ "_".data ++ "transcript".data)
            ("md".data))]) :=
  c2_blog_dependents_skipped ("t".data) stubAllOk ["seo".data, "newsletter".data] ("j2".data)
    ("ep".data) ("ts".data) (by decide)
    (fun hmem => absurd hmem (by decide)) (fun hmem => absurd hmem (by decide))

/-- C2 counterexample: requested kinds `[seo, faq]` satisfy the claim's hypothesis
(`seo` requested, `blog` not), the job completes — but the files map does not
contain only the transcript entry: the independent `faq` artifact is also
recorded. -/
theorem c2_counterexample :
    ("seo".data ∈ (["seo".data, "faq".data] : List Str) ∧
      "blog".data ∉ (["seo".data, "faq".data] : List Str)) ∧
    (process_audio (.ok ("t".data)) stubAllOk ["seo".data, "faq".data] ("j2".data) ("ep".data)
        ("ts".data)).status = "completed".data ∧
    (process_audio (.ok ("t".data)) stubAllOk ["seo".data, "faq".data] ("j2".data) ("ep".data)
        ("ts".data)).files =
      [("transcript".data, "j2_ep_transcript.md".data), ("faq".data, "j2_ep_faq.md".data)] := by
  refine ⟨by decide, by decide, by decide⟩

/- ======================================================================
   Claim C9
   ====================================================================== -/

/-- C9: every job that ends `completed` has persisted the transcript — as the first
persisted file, before any artifact generation — and recorded it in the files map
under the key `transcript`, which is not one of the requestable artifact kinds;
this holds whatever kinds were requested. -/
theorem c9_transcript_always_persisted (tr : Except Str Str) (stub : LLMStub)
    (cts : List Str) (jid base ts : Str)
    (hdone : (process_audio tr stub cts jid base ts).status = "completed".data) :
    "transcript".data ∉ supported_content_types ∧
    ∃ t, tr = .ok t ∧
      (process_audio tr stub cts jid base ts).saves.head? =
        some (save_output (jid ++ "_".data ++ base ++ "_".data ++ "transcript".data) ("md".data),
          ContentVal.text (process_transcript t)) ∧
      dictGetStr ("transcript".data) (process_audio tr stub cts jid base ts).files =
        some (save_output (jid ++ "_".data ++ base ++ "_".data ++ "transcript".data)
          ("md".data)) := by
  cases tr with
  | error e =>
    exfalso
    have hst : (process_audio (.error e) stub cts jid base ts).status = "failed".data := rfl
    rw [hst] at hdone
    exact absurd hdone (by decide)
  | ok t =>
    have hred : process_audio (.ok t) stub cts jid base ts =
        artifactsPhase stub cts (process_transcript t) (jid ++ "_".data ++ base)
          ⟨[("transcript".data,
              save_output (jid ++ "_".data ++ base ++ "_".data ++ "transcript".data) ("md".data))],
            [(save_output (jid ++ "_".data ++ base ++ "_".data ++ "transcript".data) ("md".data),
              ContentVal.text (process_transcript t))]⟩ := rfl
    rcases artifactsPhase_cases stub cts (process_transcript t) (jid ++ "_".data ++ base)
        ⟨[("transcript".data,
            save_output (jid ++ "_".data ++ base ++ "_".data ++ "transcript".data) ("md".data))],
          [(save_output (jid ++ "_".data ++ base ++ "_".data ++ "transcript".data) ("md".data),
            ContentVal.text (process_transcript t))]⟩
      with ⟨st2, ext, heq⟩ | ⟨st2, e, ext, heq⟩
    · obtain ⟨⟨ss, hss, _⟩, ⟨fs, hfs, _⟩⟩ := ext
      have hsv : (process_audio (.ok t) stub cts jid base ts).saves = st2.saves := by
        rw [hred, heq]
      have hfl : (process_audio (.ok t) stub cts jid base ts).files = st2.files := by
        rw [hred, heq]
      refine ⟨by decide, t, rfl, ?_, ?_⟩
      · rw [hsv, hss]
        rfl
      · rw [hfl, hfs]
        simp [dictGetStr]
    · exfalso
      rw [hred, heq] at hdone
      have hfj : (failJob st2.saves e).status = "failed".data := rfl
      rw [hfj] at hdone
      exact absurd hdone (by decide)

/-- C9 witness: a concrete completed job (no artifact kinds requested) whose job
record carries the transcript file, persisted first. -/
theorem c9_transcript_always_persisted_witness :
    "transcript".data ∉ supported_content_types ∧
    ∃ t, (Except.ok ("hi".data) : Except Str Str) = .ok t ∧
      (process_audio (.ok ("hi".data)) stubAllErr [] ("j3".data) ("ep".data)
          ("ts".data)).saves.head? =
        some (save_output ("j3".data ++ "_".data ++ "ep".data ++ "_".data ++ "transcript".data)
            ("md".data),
          ContentVal.text (process_transcript t)) ∧
      dictGetStr ("transcript".data)
          (process_audio (.ok ("hi".data)) stubAllErr [] ("j3".data) ("ep".data)
            ("ts".data)).files =
        some (save_output ("j3".data ++ "_".data ++ "ep".data ++ "_".data ++ "transcript".data)
          ("md".data)) :=
  c9_transcript_always_persisted (.ok ("hi".data)) stubAllErr [] ("j3".data) ("ep".data)
    ("ts".data) rfl

/- ======================================================================
   Claim C8
   ====================================================================== -/

/-- C8 (amended): every file the job pipeline persists has the deterministic name
`{job_id}_{source_basename}_{kind}.{ext}` with `ext = json` for the `seo` kind and
`md` otherwise, derived from the job id, the source file's basename and the
artifact kind; the timestamp the pipeline computes is not used in the name (see
the counterexample). -/
theorem c8_persisted_names (tr : Except Str Str) (stub : LLMStub) (cts : List Str)
    (jid base ts : Str) :
    ∀ nv ∈ (process_audio tr stub cts jid base ts).saves,
      ∃ k, k ∈ ("transcript".data :: supported_content_types) ∧
        nv.1 = jid ++ "_".data ++ base ++ "_".data ++ k ++ ".".data ++ kindExt k := by
  cases tr with
  | error e =>
    intro nv hnv
    have hsv : (process_audio (.error e) stub cts jid base ts).saves = [] := rfl
    rw [hsv] at hnv
    exact absurd hnv (List.not_mem_nil nv)
  | ok t =>
    intro nv hnv
    have hred : process_audio (.ok t) stub cts jid base ts =
        artifactsPhase stub cts (process_transcript t) (jid ++ "_".data ++ base)
          ⟨[("transcript".data,
              save_output (jid ++ "_".data ++ base ++ "_".data ++ "transcript".data) ("md".data))],
            [(save_output (jid ++ "_".data ++ base ++ "_".data ++ "transcript".data) ("md".data),
              ContentVal.text (process_transcript t))]⟩ := rfl
    rcases artifactsPhase_cases stub cts (process_transcript t) (jid ++ "_".data ++ base)
        ⟨[("transcript".data,
            save_output (jid ++ "_".data ++ base ++ "_".data ++ "transcript".data) ("md".data))],
          [(save_output (jid ++ "_".data ++ base ++ "_".data ++ "transcript".data) ("md".data),
            ContentVal.text (process_transcript t))]⟩
      with ⟨st2, ext, heq⟩ | ⟨st2, e, ext, heq⟩
    all_goals
      obtain ⟨⟨ss, hss, hshape⟩, _⟩ := ext
      have hsv : (process_audio (.ok t) stub cts jid base ts).saves = st2.saves := by
        rw [hred, heq]
        try rfl
      rw [hsv, hss] at hnv
      rcases List.mem_append.mp hnv with h | h
      · rw [List.mem_singleton] at h
        subst h
        refine ⟨"transcript".data, by decide, ?_⟩
        simp [save_output, kindExt, List.append_assoc]
      · obtain ⟨k, hk, hname⟩ := hshape nv h
        refine ⟨k, List.mem_cons_of_mem _ hk, ?_⟩
        rw [hname]
        simp [save_output, List.append_assoc]

/-- C8 witness: in a concrete run, the persisted transcript file carries the
deterministic `{job}_{basename}_{kind}.{ext}` name. -/
theorem c8_persisted_names_witness :
    (("j4_ep_transcript.md".data, ContentVal.text ("t".data)) ∈
      (process_audio (.ok ("t".data)) stubAllErr [] ("j4".data) ("ep".data) ("ts".data)).saves) ∧
    ∃ k, k ∈ ("transcript".data :: supported_content_types) ∧
      ("j4_ep_transcript.md".data, ContentVal.text ("t".data)).1 =
        "j4".data ++ "_".data ++ "ep".data ++ "_".data ++ k ++ ".".data ++ kindExt k :=
  ⟨by decide,
    c8_persisted_names (.ok ("t".data)) stubAllErr [] ("j4".data) ("ep".data) ("ts".data)
      ("j4_ep_transcript.md".data, ContentVal.text ("t".data)) (by decide)⟩

/-- C8 counterexample: persisted names are not derived from the timestamp — two runs
differing only in the timestamp produce identical job results, and the persisted
name is built from the job id, the source basename and the kind alone. -/
theorem c8_counterexample :
    process_audio (.ok ("t".data)) stubAllErr [] ("j5".data) ("ep".data)
        ("20240101_000000".data) =
      process_audio (.ok ("t".data)) stubAllErr [] ("j5".data) ("ep".data)
        ("20991231_235959".data) ∧
    (process_audio (.ok ("t".data)) stubAllErr [] ("j5".data) ("ep".data)
        ("20240101_000000".data)).saves =
      [("j5_ep_transcript.md".data, ContentVal.text ("t".data))] := by
  exact ⟨rfl, by decide⟩

/-- When `blog`, `seo` and `faq` are requested (and the other three kinds are not),
the blog generation returns a nonempty body, the seo generation returns a
dictionary `d` and the faq generation returns text, the phase completes and
records exactly the blog, seo and faq artifacts after the initial state. -/
theorem artifactsPhase_blog_seo_faq {stub : LLMStub} {cts : List Str} {cleaned : Str}
    (hbm : "blog".data ∈ cts) (hsm : "seo".data ∈ cts) (hfm : "faq".data ∈ cts)
    (hsocn : ¬ "social".data ∈ cts) (hnewsn : ¬ "newsletter".data ∈ cts)
    (hqn : ¬ "quotes".data ∈ cts)
    {b : Str} (hgb : generate_blog cleaned stub.blogSummary stub.blogAgent = .ok b)
    (htb : truthy (some b) = true)
    {d : SeoOut} (hd : generate_seo_elements stub.seo = .ok d)
    {c : Str} (hc : generate_faq stub.faq = .ok c)
    (ob : Str) (st0 : PState) :
    artifactsPhase stub cts cleaned ob st0 =
      { status := "completed".data, error := none,
        files := ((st0.files
            ++ [("blog".data, save_output (ob ++ "_".data ++ "blog".data) ("md".data))])
            ++ [("seo".data, save_output (ob ++ "_".data ++ "seo".data) ("json".data))])
            ++ [("faq".data, save_output (ob ++ "_".data ++ "faq".data) ("md".data))],
        saves := ((st0.saves
            ++ [(save_output (ob ++ "_".data ++ "blog".data) ("md".data), .text b)])
            ++ [(save_output (ob ++ "_".data ++ "seo".data) ("json".data), .seoDict d)])
            ++ [(save_output (ob ++ "_".data ++ "faq".data) ("md".data), .text c)] } := by
  have h1 := runBlog_run hbm hgb ob st0
  have h2 := runSeo_run ⟨hsm, htb⟩ hd ob
    ⟨st0.files ++ [("blog".data, save_output (ob ++ "_".data ++ "blog".data) ("md".data))],
      st0.saves ++ [(save_output (ob ++ "_".data ++ "blog".data) ("md".data), .text b)]⟩
  have h3 := runTextStep_run hfm hc ("faq".data) ob
    ⟨(st0.files ++ [("blog".data, save_output (ob ++ "_".data ++ "blog".data) ("md".data))])
        ++ [("seo".data, save_output (ob ++ "_".data ++ "seo".data) ("json".data))],
      (st0.saves ++ [(save_output (ob ++ "_".data ++ "blog".data) ("md".data), .text b)])
        ++ [(save_output (ob ++ "_".data ++ "seo".data) ("json".data), .seoDict d)]⟩
  have h4 := @runTextStep_not (("social".data ∈ cts) ∧ truthy (some b) = true) _
    (fun hcon => hsocn hcon.1) (generate_social_media stub.social)
    ("social".data) ob
    ⟨((st0.files ++ [("blog".data, save_output (ob ++ "_".data ++ "blog".data) ("md".data))])
        ++ [("seo".data, save_output (ob ++ "_".data ++ "seo".data) ("json".data))])
        ++ [("faq".data, save_output (ob ++ "_".data ++ "faq".data) ("md".data))],
      ((st0.saves ++ [(save_output (ob ++ "_".data ++ "blog".data) ("md".data), .text b)])
        ++ [(save_output (ob ++ "_".data ++ "seo".data) ("json".data), .seoDict d)])
        ++ [(save_output (ob ++ "_".data ++ "faq".data) ("md".data), .text c)]⟩
  have h5 := @runTextStep_not (("newsletter".data ∈ cts) ∧ truthy (some b) = true) _
    (fun hcon => hnewsn hcon.1) (generate_newsletter stub.newsletter)
    ("newsletter".data) ob
    ⟨((st0.files ++ [("blog".data, save_output (ob ++ "_".data ++ "blog".data) ("md".data))])
        ++ [("seo".data, save_output (ob ++ "_".data ++ "seo".data) ("json".data))])
        ++ [("faq".data, save_output (ob ++ "_".data ++ "faq".data) ("md".data))],
      ((st0.saves ++ [(save_output (ob ++ "_".data ++ "blog".data) ("md".data), .text b)])
        ++ [(save_output (ob ++ "_".data ++ "seo".data) ("json".data), .seoDict d)])
        ++ [(save_output (ob ++ "_".data ++ "faq".data) ("md".data), .text c)]⟩
  have h6 := runTextStep_not hqn (extract_quotes stub.quotes) ("quotes".data) ob
    ⟨((st0.files ++ [("blog".data, save_output (ob ++ "_".data ++ "blog".data) ("md".data))])
        ++ [("seo".data, save_output (ob ++ "_".data ++ "seo".data) ("json".data))])
        ++ [("faq".data, save_output (ob ++ "_".data ++ "faq".data) ("md".data))],
      ((st0.saves ++ [(save_output (ob ++ "_".data ++ "blog".data) ("md".data), .text b)])
        ++ [(save_output (ob ++ "_".data ++ "seo".data) ("json".data), .seoDict d)])
        ++ [(save_output (ob ++ "_".data ++ "faq".data) ("md".data), .text c)]⟩
  simp only [artifactsPhase, h1, h2, h3, h4, h5, h6]

/- ======================================================================
   Claim C3
   ====================================================================== -/

/-- C3 (amended): a model response for the `seo` kind whose JSON candidate fails
parsing or schema validation yields — from the single model call, with no retry —
the error dictionary carrying an error message and, in `raw_response`, the JSON
candidate (the fenced-block content when one is present, else the whole raw
output); sibling artifact generations and the job are unaffected: the job still
ends `completed`, with the error artifact persisted and the faq sibling recorded. -/
theorem c3_seo_error_record (r : Str)
    (hfail : json_loads (extract_json_candidate '{' '}' r) = none ∨
      ∃ j, json_loads (extract_json_candidate '{' '}' r) = some j ∧ validateSeo j = none) :
    (∃ msg, generate_seo_elements (.ok r) =
      .ok (.errorRecord msg (extract_json_candidate '{' '}' r))) ∧
    ∀ (t b fr : Str) (stub : LLMStub) (jid base ts : Str),
      stub.seo = .ok r → stub.blogAgent = .ok b → ¬ b = [] → stub.faq = .ok fr →
      (process_transcript t).length ≤ 10000 →
      (process_audio (.ok t) stub ["blog".data, "seo".data, "faq".data] jid base ts).status
          = "completed".data ∧
      (∃ n, dictGetStr ("seo".data)
        (process_audio (.ok t) stub ["blog".data, "seo".data, "faq".data] jid base ts).files
          = some n) ∧
      (∃ n, dictGetStr ("faq".data)
        (process_audio (.ok t) stub ["blog".data, "seo".data, "faq".data] jid base ts).files
          = some n) ∧
      (∃ msg n, (n, ContentVal.seoDict (.errorRecord msg (extract_json_candidate '{' '}' r))) ∈
        (process_audio (.ok t) stub ["blog".data, "seo".data, "faq".data] jid base ts).saves) := by
  have hrec : ∃ msg, generate_seo_elements (.ok r) =
      .ok (.errorRecord msg (extract_json_candidate '{' '}' r)) := by
    rcases hfail with h | ⟨j, hj, hv⟩
    · exact ⟨"Invalid JSON format".data, by simp [generate_seo_elements, h]⟩
    · exact ⟨seoValidationMsg, by simp [generate_seo_elements, hj, hv]⟩
  refine ⟨hrec, ?_⟩
  intro t b fr stub jid base ts hseoStub hagent hbne hfr hlen
  obtain ⟨msg, hmsg⟩ := hrec
  have htb : truthy (some b) = true := by
    cases b with
    | nil => exact absurd rfl hbne
    | cons c cs => rfl
  have hgb : generate_blog (process_transcript t) stub.blogSummary stub.blogAgent = .ok b := by
    rw [hagent]
    exact generate_blog_ok hlen stub.blogSummary b
  have hdseo : generate_seo_elements stub.seo =
      .ok (SeoOut.errorRecord msg (extract_json_candidate '{' '}' r)) := by
    rw [hseoStub]
    exact hmsg
  obtain ⟨c, hcf⟩ : ∃ c, generate_faq stub.faq = .ok c := by
    rw [hfr]
    exact generate_faq_ok fr
  have hred : process_audio (.ok t) stub ["blog".data, "seo".data, "faq".data] jid base ts =
      artifactsPhase stub ["blog".data, "seo".data, "faq".data] (process_transcript t)
        (jid ++ "_".data ++ base)
        ⟨[("transcript".data,
            save_output (jid ++ "_".data ++ base ++ "_".data ++ "transcript".data) ("md".data))],
          [(save_output (jid ++ "_".data ++ base ++ "_".data ++ "transcript".data) ("md".data),
            ContentVal.text (process_transcript t))]⟩ := rfl
  have hfin := @artifactsPhase_blog_seo_faq stub (["blog".data, "seo".data, "faq".data])
    (process_transcript t) (by decide) (by decide) (by decide)
    (by decide) (by decide) (by decide) b hgb htb _ hdseo c hcf (jid ++ "_".data ++ base)
    ⟨[("transcript".data,
        save_output (jid ++ "_".data ++ base ++ "_".data ++ "transcript".data) ("md".data))],
      [(save_output (jid ++ "_".data ++ base ++ "_".data ++ "transcript".data) ("md".data),
        ContentVal.text (process_transcript t))]⟩
  rw [hred, hfin]
  refine ⟨rfl, ?_, ?_, ?_⟩
  · refine ⟨save_output ((jid ++ "_".data ++ base) ++ "_".data ++ "seo".data) ("json".data), ?_⟩
    simp [dictGetStr, List.append_assoc]
  · refine ⟨save_output ((jid ++ "_".data ++ base) ++ "_".data ++ "faq".data) ("md".data), ?_⟩
    simp [dictGetStr, List.append_assoc]
  · refine ⟨msg, save_output ((jid ++ "_".data ++ base) ++ "_".data ++ "seo".data)
      ("json".data), ?_⟩
    simp

/-- A stub for the C3 witness: the blog agent returns a body, the seo call returns
unparseable text, the faq call returns text, everything else raises. -/
def stubC3 : LLMStub :=
  ⟨.error ("boom".data), .ok ("b".data), .ok ("nonsense".data), .ok ("f".data),
   .error ("boom".data), .error ("boom".data), .error ("boom".data)⟩

/-- C3 witness: with a concrete unparseable seo response, the generator returns the
error dictionary holding the candidate, and the job with siblings completes. -/
theorem c3_seo_error_record_witness :
    (∃ msg, generate_seo_elements (.ok ("nonsense".data)) =
      .ok (.errorRecord msg (extract_json_candidate '{' '}' ("nonsense".data)))) ∧
    (process_audio (.ok ("t".data)) stubC3 ["blog".data, "seo".data, "faq".data] ("j6".data)
        ("ep".data) ("ts".data)).status = "completed".data :=
  ⟨(c3_seo_error_record ("nonsense".data) (Or.inl rfl)).1,
    ((c3_seo_error_record ("nonsense".data) (Or.inl rfl)).2 ("t".data) ("b".data) ("f".data)
      stubC3 ("j6".data) ("ep".data) ("ts".data) rfl rfl (by decide) rfl (by decide)).1⟩

/-- C3 counterexample: for the response `'```json {invalid} ```'` the error record's
`raw_response` field holds the extracted candidate `'{invalid}'`, which is not the
raw, unparsed model output. -/
theorem c3_counterexample :
    generate_seo_elements (.ok ("```json {invalid} ```".data)) =
      .ok (.errorRecord ("Invalid JSON format".data) ("{invalid}".data)) ∧
    ¬ ("{invalid}".data : Str) = "```json {invalid} ```".data := by
  constructor
  · rfl
  · decide

/- ======================================================================
   Claim C10
   ====================================================================== -/

/-- C10: `generate_faq`, `generate_social_media` and `extract_quotes` always return
a string when their model call returns a response: whenever JSON parsing or schema
validation of the candidate fails, they return the response's raw content
(`ContentOutput.from_llm_response(result).content`) instead of raising. -/
theorem c10_fallback_to_raw_content (r : Str) :
    (json_loads (extract_json_candidate '[' ']' r) >>= validateFaqList = none →
      generate_faq (.ok r) = .ok r) ∧
    (json_loads (extract_json_candidate '{' '}' r) >>= validateSocial = none →
      generate_social_media (.ok r) = .ok r) ∧
    (json_loads (extract_json_candidate '[' ']' r) >>= validateQuoteList = none →
      extract_quotes (.ok r) = .ok r) := by
  refine ⟨?_, ?_, ?_⟩
  · intro h
    simp [generate_faq, h]
  · intro h
    simp [generate_social_media, h]
  · intro h
    simp [extract_quotes, h]

/-- C10 witness: a concrete non-JSON response makes all three generators return the
raw content itself. -/
theorem c10_fallback_to_raw_content_witness :
    generate_faq (.ok ("not json".data)) = .ok ("not json".data) ∧
    generate_social_media (.ok ("not json".data)) = .ok ("not json".data) ∧
    extract_quotes (.ok ("not json".data)) = .ok ("not json".data) :=
  ⟨(c10_fallback_to_raw_content ("not json".data)).1 rfl,
   (c10_fallback_to_raw_content ("not json".data)).2.1 rfl,
   (c10_fallback_to_raw_content ("not json".data)).2.2 rfl⟩

end Podcast
